import Mathlib

/-!
Verification of squashfuse: byte-order normalisation (`swap.c`, `swap.h`) and
the codec registry (`decompress.c`).

A shallow embedding of the C sources.  Memory is a list of bytes, a pointer is
an index into it, and a C function that mutates memory through a pointer
becomes a function from the memory before the call to the memory after it.
Build-time switches (`#ifdef`) become fields of a configuration record.
-/

namespace Squashfuse

/-! ## Memory model -/

/-- One byte of memory (`uint8_t`). -/
abbrev Byte := Fin 256

/-- Byte order of the host the code runs on. -/
inductive ByteOrder where
  | littleEndian
  | bigEndian
  deriving DecidableEq, Repr

/-- The host: its byte order and whether `config.h` defines
`HAVE_ASM_BYTEORDER_H` (which selects the variant of `sqfs_swapinN`). -/
structure Host where
  order : ByteOrder
  HAVE_ASM_BYTEORDER_H : Bool
  deriving DecidableEq, Repr

/-- The byte `c[a]` of memory. -/
def readByte (mem : List Byte) (a : Nat) : Byte := mem.getD a 0

/-- The `n` bytes of memory starting at address `a`, lowest address first. -/
def readBytes (mem : List Byte) : Nat → Nat → List Byte
  | _, 0 => []
  | a, n + 1 => readByte mem a :: readBytes mem (a + 1) n

/-- Memory after storing the bytes `bs` at addresses `a`, `a + 1`, ... -/
def writeBytes : List Byte → Nat → List Byte → List Byte
  | mem, _, [] => mem
  | mem, a, b :: bs => writeBytes (mem.set a b) (a + 1) bs

/-- The unsigned integer whose little-endian representation is `bs`:
the sum of `bs[i] * 256 ^ i`. -/
def leValue : List Byte → Nat
  | [] => 0
  | b :: bs => b.val + 256 * leValue bs

/-- The `n`-byte little-endian representation of `v` (its low `8 * n` bits). -/
def toLEBytes : Nat → Nat → List Byte
  | _, 0 => []
  | v, n + 1 => ⟨v % 256, Nat.mod_lt v (by decide)⟩ :: toLEBytes (v / 256) n

/-- The value of an unsigned integer object whose bytes in memory, lowest
address first, are `bs`, as the host reads it. -/
def decode (o : ByteOrder) (bs : List Byte) : Nat :=
  match o with
  | .littleEndian => leValue bs
  | .bigEndian => leValue bs.reverse

/-- The bytes, lowest address first, the host stores for the `n`-byte unsigned
integer `v`. -/
def encode (o : ByteOrder) (n : Nat) (v : Nat) : List Byte :=
  match o with
  | .littleEndian => toLEBytes v n
  | .bigEndian => (toLEBytes v n).reverse

/-- Reading `*v` for a `uintBITS_t *v`: the host-order value at address `v`. -/
def load (o : ByteOrder) (BITS : Nat) (mem : List Byte) (v : Nat) : Nat :=
  decode o (readBytes mem v (BITS / 8))

/-- The assignment `*v = r` for a `uintBITS_t *v`. -/
def store (o : ByteOrder) (BITS : Nat) (mem : List Byte) (v : Nat) (r : Nat) : List Byte :=
  writeBytes mem v (encode o (BITS / 8) r)

/-! ## swap.c: the portable `SWAP(BITS)` macro -/

/-- The loop of `SWAP(BITS)`:
`for (i = sizeof(*v) - 1; i >= 0; --i) { r <<= 8; r += c[i]; }`
with `c = (uint8_t*)v`.  The first numeric argument is `i + 1` (so the loop
stops when it is `0`), the second is the `BITS`-bit accumulator `r`, the third
counts the iterations made so far.  Returns the final `r` and the count. -/
def SWAP_loop (BITS : Nat) (mem : List Byte) (v : Nat) : Nat → Nat → Nat → Nat × Nat
  | 0, r, iters => (r, iters)
  | i + 1, r, iters =>
    let r1 := (r * 2 ^ 8) % 2 ^ BITS
    let r2 := (r1 + (readByte mem (v + i)).val) % 2 ^ BITS
    SWAP_loop BITS mem v i r2 (iters + 1)

/-- The function `sqfs_swapin##BITS` defined by `SWAP(BITS)` (built when
`HAVE_ASM_BYTEORDER_H` is not defined): memory after the call with pointer
`v`.  `sizeof(*v)` is `BITS / 8`. -/
def sqfs_swapin_portable (o : ByteOrder) (BITS : Nat) (mem : List Byte) (v : Nat) : List Byte :=
  let r := (SWAP_loop BITS mem v (BITS / 8) 0 0).1
  store o BITS mem v r

/-! ## swap.h: the `<asm/byteorder.h>` variant -/

/-- Byte reversal of the low `n` bytes of `x` (the kernel's `__swabN` for
`N = 8 * n`, from `<asm/byteorder.h>`, which is not part of this repository). -/
def swab : Nat → Nat → Nat
  | 0, _ => 0
  | n + 1, x => (x % 256) * 256 ^ n + swab n (x / 256)

/-- The macros `__le16_to_cpu`, `__le32_to_cpu`, `__le64_to_cpu` of
`<asm/byteorder.h>`: the identity on a little-endian host, byte reversal on a
big-endian host. -/
def le_to_cpu (o : ByteOrder) (BITS : Nat) (x : Nat) : Nat :=
  match o with
  | .littleEndian => x
  | .bigEndian => swab (BITS / 8) x

/-- The inline `sqfs_swapinN` of swap.h under `HAVE_ASM_BYTEORDER_H`:
`*v = __leN_to_cpu(*v)`. -/
def sqfs_swapin_asm (o : ByteOrder) (BITS : Nat) (mem : List Byte) (v : Nat) : List Byte :=
  store o BITS mem v (le_to_cpu o BITS (load o BITS mem v))

/-- The function `sqfs_swapinN` as the build selects it. -/
def sqfs_swapin (h : Host) (BITS : Nat) (mem : List Byte) (v : Nat) : List Byte :=
  if h.HAVE_ASM_BYTEORDER_H then sqfs_swapin_asm h.order BITS mem v
  else sqfs_swapin_portable h.order BITS mem v

/-- The function `sqfs_swapin16(uint16_t *v)`. -/
def sqfs_swapin16 (h : Host) (mem : List Byte) (v : Nat) : List Byte := sqfs_swapin h 16 mem v
/-- The function `sqfs_swapin32(uint32_t *v)`. -/
def sqfs_swapin32 (h : Host) (mem : List Byte) (v : Nat) : List Byte := sqfs_swapin h 32 mem v
/-- The function `sqfs_swapin64(uint64_t *v)`. -/
def sqfs_swapin64 (h : Host) (mem : List Byte) (v : Nat) : List Byte := sqfs_swapin h 64 mem v

/-- The inline `sqfs_swapin16_internal(__le16 *v)`: calls `sqfs_swapin16((uint16_t*)v)`. -/
def sqfs_swapin16_internal (h : Host) (mem : List Byte) (v : Nat) : List Byte :=
  sqfs_swapin16 h mem v
/-- The inline `sqfs_swapin32_internal(__le32 *v)`: calls `sqfs_swapin32((uint32_t*)v)`. -/
def sqfs_swapin32_internal (h : Host) (mem : List Byte) (v : Nat) : List Byte :=
  sqfs_swapin32 h mem v
/-- The inline `sqfs_swapin64_internal(__le64 *v)`: calls `sqfs_swapin64((uint64_t*)v)`. -/
def sqfs_swapin64_internal (h : Host) (mem : List Byte) (v : Nat) : List Byte :=
  sqfs_swapin64 h mem v

/-- The C function `sqfs_swap16`, on the value `*n` of the `uint16_t` it points to:
`*n = (*n >> 8) + (*n << 8)`, computed in `int` and truncated to 16 bits by
the assignment. -/
def sqfs_swap16 (n : Nat) : Nat := ((n >>> 8) + (n <<< 8)) % 2 ^ 16

/-! ## swap.c: the structure normalisers -/

/-- Modelled from the spec: the byte offsets of the fields of
`struct squashfs_super_block` (declared in squashfs_fs.h, which is not in src):
the fields in the order and with the widths the spec lists, packed without
padding. -/
structure super_block_layout where
  s_magic : Nat := 0
  inodes : Nat := 4
  mkfs_time : Nat := 8
  block_size : Nat := 12
  fragments : Nat := 16
  compression : Nat := 20
  block_log : Nat := 22
  flags : Nat := 24
  no_ids : Nat := 26
  s_major : Nat := 28
  s_minor : Nat := 30
  root_inode : Nat := 32
  bytes_used : Nat := 40
  id_table_start : Nat := 48
  xattr_id_table_start : Nat := 56
  inode_table_start : Nat := 64
  directory_table_start : Nat := 72
  fragment_table_start : Nat := 80
  lookup_table_start : Nat := 88

/-- The layout of the superblock: every field at its default offset. -/
def sb_off : super_block_layout := {}

/-- The C function `sqfs_swapin_super_block(struct squashfs_super_block *s)`: memory after
the call, `s` being the address of the structure. -/
def sqfs_swapin_super_block (h : Host) (mem : List Byte) (s : Nat) : List Byte :=
  let mem := sqfs_swapin32_internal h mem (s + sb_off.s_magic)
  let mem := sqfs_swapin32_internal h mem (s + sb_off.inodes)
  let mem := sqfs_swapin32_internal h mem (s + sb_off.mkfs_time)
  let mem := sqfs_swapin32_internal h mem (s + sb_off.block_size)
  let mem := sqfs_swapin32_internal h mem (s + sb_off.fragments)
  let mem := sqfs_swapin16_internal h mem (s + sb_off.compression)
  let mem := sqfs_swapin16_internal h mem (s + sb_off.block_log)
  let mem := sqfs_swapin16_internal h mem (s + sb_off.flags)
  let mem := sqfs_swapin16_internal h mem (s + sb_off.no_ids)
  let mem := sqfs_swapin16_internal h mem (s + sb_off.s_major)
  let mem := sqfs_swapin16_internal h mem (s + sb_off.s_minor)
  let mem := sqfs_swapin64_internal h mem (s + sb_off.root_inode)
  let mem := sqfs_swapin64_internal h mem (s + sb_off.bytes_used)
  let mem := sqfs_swapin64_internal h mem (s + sb_off.id_table_start)
  let mem := sqfs_swapin64_internal h mem (s + sb_off.xattr_id_table_start)
  let mem := sqfs_swapin64_internal h mem (s + sb_off.inode_table_start)
  let mem := sqfs_swapin64_internal h mem (s + sb_off.directory_table_start)
  let mem := sqfs_swapin64_internal h mem (s + sb_off.fragment_table_start)
  let mem := sqfs_swapin64_internal h mem (s + sb_off.lookup_table_start)
  mem

/-- Modelled from the spec: the fields of `struct squashfs_super_block`
(squashfs_fs.h is not in src), each holding the value the host reads. -/
structure squashfs_super_block where
  s_magic : Nat
  inodes : Nat
  mkfs_time : Nat
  block_size : Nat
  fragments : Nat
  compression : Nat
  block_log : Nat
  flags : Nat
  no_ids : Nat
  s_major : Nat
  s_minor : Nat
  root_inode : Nat
  bytes_used : Nat
  id_table_start : Nat
  xattr_id_table_start : Nat
  inode_table_start : Nat
  directory_table_start : Nat
  fragment_table_start : Nat
  lookup_table_start : Nat
  deriving DecidableEq, Repr

/-- The field values `s->s_magic`, `s->inodes`, ... the host reads from the
structure at address `s`. -/
def read_super_block (o : ByteOrder) (mem : List Byte) (s : Nat) : squashfs_super_block :=
  { s_magic := load o 32 mem (s + sb_off.s_magic)
    inodes := load o 32 mem (s + sb_off.inodes)
    mkfs_time := load o 32 mem (s + sb_off.mkfs_time)
    block_size := load o 32 mem (s + sb_off.block_size)
    fragments := load o 32 mem (s + sb_off.fragments)
    compression := load o 16 mem (s + sb_off.compression)
    block_log := load o 16 mem (s + sb_off.block_log)
    flags := load o 16 mem (s + sb_off.flags)
    no_ids := load o 16 mem (s + sb_off.no_ids)
    s_major := load o 16 mem (s + sb_off.s_major)
    s_minor := load o 16 mem (s + sb_off.s_minor)
    root_inode := load o 64 mem (s + sb_off.root_inode)
    bytes_used := load o 64 mem (s + sb_off.bytes_used)
    id_table_start := load o 64 mem (s + sb_off.id_table_start)
    xattr_id_table_start := load o 64 mem (s + sb_off.xattr_id_table_start)
    inode_table_start := load o 64 mem (s + sb_off.inode_table_start)
    directory_table_start := load o 64 mem (s + sb_off.directory_table_start)
    fragment_table_start := load o 64 mem (s + sb_off.fragment_table_start)
    lookup_table_start := load o 64 mem (s + sb_off.lookup_table_start) }

/-- A run of `sqfs_swapinN_internal` calls, each given as the pair of its
width `N` and the address it is applied to, performed left to right. -/
def swapFields (h : Host) (calls : List (Nat × Nat)) (mem : List Byte) : List Byte :=
  calls.foldl (fun m c => sqfs_swapin h c.1 m c.2) mem

/-- The calls in the body of `sqfs_swapin_super_block`, in source order: the
width of each call and the address of the field it converts. -/
def super_block_calls (s : Nat) : List (Nat × Nat) :=
  [(32, s + sb_off.s_magic), (32, s + sb_off.inodes), (32, s + sb_off.mkfs_time),
   (32, s + sb_off.block_size), (32, s + sb_off.fragments), (16, s + sb_off.compression),
   (16, s + sb_off.block_log), (16, s + sb_off.flags), (16, s + sb_off.no_ids),
   (16, s + sb_off.s_major), (16, s + sb_off.s_minor), (64, s + sb_off.root_inode),
   (64, s + sb_off.bytes_used), (64, s + sb_off.id_table_start),
   (64, s + sb_off.xattr_id_table_start), (64, s + sb_off.inode_table_start),
   (64, s + sb_off.directory_table_start), (64, s + sb_off.fragment_table_start),
   (64, s + sb_off.lookup_table_start)]

/-- The bytes a conversion leaves in a field whose bytes were `bs`: the same
bytes on a little-endian host, the bytes in reverse order on a big-endian one. -/
def hostSwap (o : ByteOrder) (bs : List Byte) : List Byte :=
  match o with
  | .littleEndian => bs
  | .bigEndian => bs.reverse

/-- Two calls convert fields that do not overlap. -/
def callsDisjoint (c d : Nat × Nat) : Prop :=
  c.2 + c.1 / 8 ≤ d.2 ∨ d.2 + d.1 / 8 ≤ c.2

instance instDecidableCallsDisjoint (c d : Nat × Nat) : Decidable (callsDisjoint c d) :=
  inferInstanceAs (Decidable (c.2 + c.1 / 8 ≤ d.2 ∨ d.2 + d.1 / 8 ≤ c.2))

/-- Modelled from the spec: the byte offsets of the fields of
`struct squashfs_dir_index` that `sqfs_swapin_dir_index` converts (the structure is
declared in squashfs_fs.h, which is not in src): the fields in their declared
order, each as wide as its conversion, packed without padding. -/
structure dir_index_layout where
  index : Nat := 0
  start_block : Nat := 4
  size : Nat := 8

/-- The layout of `struct squashfs_dir_index`: every field at its default offset. -/
def dir_index_off : dir_index_layout := {}

/-- The function `sqfs_swapin_dir_index(struct squashfs_dir_index *s)`: memory after the
call, `s` being the address of the structure. -/
def sqfs_swapin_dir_index (h : Host) (mem : List Byte) (s : Nat) : List Byte :=
  let mem := sqfs_swapin32_internal h mem (s + dir_index_off.index)
  let mem := sqfs_swapin32_internal h mem (s + dir_index_off.start_block)
  let mem := sqfs_swapin32_internal h mem (s + dir_index_off.size)
  mem

/-- The calls in the body of `sqfs_swapin_dir_index`, in source order: the width of
each call and the address of the field it converts. -/
def dir_index_calls (s : Nat) : List (Nat × Nat) :=
  [(32, s + dir_index_off.index), (32, s + dir_index_off.start_block),
   (32, s + dir_index_off.size)]

/-- Modelled from the spec: the byte offsets of the fields of
`struct squashfs_base_inode` that `sqfs_swapin_base_inode` converts (the structure is
declared in squashfs_fs.h, which is not in src): the fields in their declared
order, each as wide as its conversion, packed without padding. -/
structure base_inode_layout where
  inode_type : Nat := 0
  mode : Nat := 2
  uid : Nat := 4
  guid : Nat := 6
  mtime : Nat := 8
  inode_number : Nat := 12

/-- The layout of `struct squashfs_base_inode`: every field at its default offset. -/
def base_inode_off : base_inode_layout := {}

/-- The function `sqfs_swapin_base_inode(struct squashfs_base_inode *s)`: memory after the
call, `s` being the address of the structure. -/
def sqfs_swapin_base_inode (h : Host) (mem : List Byte) (s : Nat) : List Byte :=
  let mem := sqfs_swapin16_internal h mem (s + base_inode_off.inode_type)
  let mem := sqfs_swapin16_internal h mem (s + base_inode_off.mode)
  let mem := sqfs_swapin16_internal h mem (s + base_inode_off.uid)
  let mem := sqfs_swapin16_internal h mem (s + base_inode_off.guid)
  let mem := sqfs_swapin32_internal h mem (s + base_inode_off.mtime)
  let mem := sqfs_swapin32_internal h mem (s + base_inode_off.inode_number)
  mem

/-- The calls in the body of `sqfs_swapin_base_inode`, in source order: the width of
each call and the address of the field it converts. -/
def base_inode_calls (s : Nat) : List (Nat × Nat) :=
  [(16, s + base_inode_off.inode_type), (16, s + base_inode_off.mode),
   (16, s + base_inode_off.uid), (16, s + base_inode_off.guid), (32, s + base_inode_off.mtime),
   (32, s + base_inode_off.inode_number)]

/-- Modelled from the spec: the byte offsets of the fields of
`struct squashfs_ipc_inode` that `sqfs_swapin_ipc_inode` converts (the structure is
declared in squashfs_fs.h, which is not in src): the fields in their declared
order, each as wide as its conversion, packed without padding. -/
structure ipc_inode_layout where
  inode_type : Nat := 0
  mode : Nat := 2
  uid : Nat := 4
  guid : Nat := 6
  mtime : Nat := 8
  inode_number : Nat := 12
  nlink : Nat := 16

/-- The layout of `struct squashfs_ipc_inode`: every field at its default offset. -/
def ipc_inode_off : ipc_inode_layout := {}

/-- The function `sqfs_swapin_ipc_inode(struct squashfs_ipc_inode *s)`: memory after the
call, `s` being the address of the structure. -/
def sqfs_swapin_ipc_inode (h : Host) (mem : List Byte) (s : Nat) : List Byte :=
  let mem := sqfs_swapin16_internal h mem (s + ipc_inode_off.inode_type)
  let mem := sqfs_swapin16_internal h mem (s + ipc_inode_off.mode)
  let mem := sqfs_swapin16_internal h mem (s + ipc_inode_off.uid)
  let mem := sqfs_swapin16_internal h mem (s + ipc_inode_off.guid)
  let mem := sqfs_swapin32_internal h mem (s + ipc_inode_off.mtime)
  let mem := sqfs_swapin32_internal h mem (s + ipc_inode_off.inode_number)
  let mem := sqfs_swapin32_internal h mem (s + ipc_inode_off.nlink)
  mem

/-- The calls in the body of `sqfs_swapin_ipc_inode`, in source order: the width of
each call and the address of the field it converts. -/
def ipc_inode_calls (s : Nat) : List (Nat × Nat) :=
  [(16, s + ipc_inode_off.inode_type), (16, s + ipc_inode_off.mode), (16, s + ipc_inode_off.uid),
   (16, s + ipc_inode_off.guid), (32, s + ipc_inode_off.mtime),
   (32, s + ipc_inode_off.inode_number), (32, s + ipc_inode_off.nlink)]

/-- Modelled from the spec: the byte offsets of the fields of
`struct squashfs_lipc_inode` that `sqfs_swapin_lipc_inode` converts (the structure is
declared in squashfs_fs.h, which is not in src): the fields in their declared
order, each as wide as its conversion, packed without padding. -/
structure lipc_inode_layout where
  inode_type : Nat := 0
  mode : Nat := 2
  uid : Nat := 4
  guid : Nat := 6
  mtime : Nat := 8
  inode_number : Nat := 12
  nlink : Nat := 16
  xattr : Nat := 20

/-- The layout of `struct squashfs_lipc_inode`: every field at its default offset. -/
def lipc_inode_off : lipc_inode_layout := {}

/-- The function `sqfs_swapin_lipc_inode(struct squashfs_lipc_inode *s)`: memory after the
call, `s` being the address of the structure. -/
def sqfs_swapin_lipc_inode (h : Host) (mem : List Byte) (s : Nat) : List Byte :=
  let mem := sqfs_swapin16_internal h mem (s + lipc_inode_off.inode_type)
  let mem := sqfs_swapin16_internal h mem (s + lipc_inode_off.mode)
  let mem := sqfs_swapin16_internal h mem (s + lipc_inode_off.uid)
  let mem := sqfs_swapin16_internal h mem (s + lipc_inode_off.guid)
  let mem := sqfs_swapin32_internal h mem (s + lipc_inode_off.mtime)
  let mem := sqfs_swapin32_internal h mem (s + lipc_inode_off.inode_number)
  let mem := sqfs_swapin32_internal h mem (s + lipc_inode_off.nlink)
  let mem := sqfs_swapin32_internal h mem (s + lipc_inode_off.xattr)
  mem

/-- The calls in the body of `sqfs_swapin_lipc_inode`, in source order: the width of
each call and the address of the field it converts. -/
def lipc_inode_calls (s : Nat) : List (Nat × Nat) :=
  [(16, s + lipc_inode_off.inode_type), (16, s + lipc_inode_off.mode),
   (16, s + lipc_inode_off.uid), (16, s + lipc_inode_off.guid), (32, s + lipc_inode_off.mtime),
   (32, s + lipc_inode_off.inode_number), (32, s + lipc_inode_off.nlink),
   (32, s + lipc_inode_off.xattr)]

/-- Modelled from the spec: the byte offsets of the fields of
`struct squashfs_dev_inode` that `sqfs_swapin_dev_inode` converts (the structure is
declared in squashfs_fs.h, which is not in src): the fields in their declared
order, each as wide as its conversion, packed without padding. -/
structure dev_inode_layout where
  inode_type : Nat := 0
  mode : Nat := 2
  uid : Nat := 4
  guid : Nat := 6
  mtime : Nat := 8
  inode_number : Nat := 12
  nlink : Nat := 16
  rdev : Nat := 20

/-- The layout of `struct squashfs_dev_inode`: every field at its default offset. -/
def dev_inode_off : dev_inode_layout := {}

/-- The function `sqfs_swapin_dev_inode(struct squashfs_dev_inode *s)`: memory after the
call, `s` being the address of the structure. -/
def sqfs_swapin_dev_inode (h : Host) (mem : List Byte) (s : Nat) : List Byte :=
  let mem := sqfs_swapin16_internal h mem (s + dev_inode_off.inode_type)
  let mem := sqfs_swapin16_internal h mem (s + dev_inode_off.mode)
  let mem := sqfs_swapin16_internal h mem (s + dev_inode_off.uid)
  let mem := sqfs_swapin16_internal h mem (s + dev_inode_off.guid)
  let mem := sqfs_swapin32_internal h mem (s + dev_inode_off.mtime)
  let mem := sqfs_swapin32_internal h mem (s + dev_inode_off.inode_number)
  let mem := sqfs_swapin32_internal h mem (s + dev_inode_off.nlink)
  let mem := sqfs_swapin32_internal h mem (s + dev_inode_off.rdev)
  mem

/-- The calls in the body of `sqfs_swapin_dev_inode`, in source order: the width of
each call and the address of the field it converts. -/
def dev_inode_calls (s : Nat) : List (Nat × Nat) :=
  [(16, s + dev_inode_off.inode_type), (16, s + dev_inode_off.mode), (16, s + dev_inode_off.uid),
   (16, s + dev_inode_off.guid), (32, s + dev_inode_off.mtime),
   (32, s + dev_inode_off.inode_number), (32, s + dev_inode_off.nlink),
   (32, s + dev_inode_off.rdev)]

/-- Modelled from the spec: the byte offsets of the fields of
`struct squashfs_ldev_inode` that `sqfs_swapin_ldev_inode` converts (the structure is
declared in squashfs_fs.h, which is not in src): the fields in their declared
order, each as wide as its conversion, packed without padding. -/
structure ldev_inode_layout where
  inode_type : Nat := 0
  mode : Nat := 2
  uid : Nat := 4
  guid : Nat := 6
  mtime : Nat := 8
  inode_number : Nat := 12
  nlink : Nat := 16
  rdev : Nat := 20
  xattr : Nat := 24

/-- The layout of `struct squashfs_ldev_inode`: every field at its default offset. -/
def ldev_inode_off : ldev_inode_layout := {}

/-- The function `sqfs_swapin_ldev_inode(struct squashfs_ldev_inode *s)`: memory after the
call, `s` being the address of the structure. -/
def sqfs_swapin_ldev_inode (h : Host) (mem : List Byte) (s : Nat) : List Byte :=
  let mem := sqfs_swapin16_internal h mem (s + ldev_inode_off.inode_type)
  let mem := sqfs_swapin16_internal h mem (s + ldev_inode_off.mode)
  let mem := sqfs_swapin16_internal h mem (s + ldev_inode_off.uid)
  let mem := sqfs_swapin16_internal h mem (s + ldev_inode_off.guid)
  let mem := sqfs_swapin32_internal h mem (s + ldev_inode_off.mtime)
  let mem := sqfs_swapin32_internal h mem (s + ldev_inode_off.inode_number)
  let mem := sqfs_swapin32_internal h mem (s + ldev_inode_off.nlink)
  let mem := sqfs_swapin32_internal h mem (s + ldev_inode_off.rdev)
  let mem := sqfs_swapin32_internal h mem (s + ldev_inode_off.xattr)
  mem

/-- The calls in the body of `sqfs_swapin_ldev_inode`, in source order: the width of
each call and the address of the field it converts. -/
def ldev_inode_calls (s : Nat) : List (Nat × Nat) :=
  [(16, s + ldev_inode_off.inode_type), (16, s + ldev_inode_off.mode),
   (16, s + ldev_inode_off.uid), (16, s + ldev_inode_off.guid), (32, s + ldev_inode_off.mtime),
   (32, s + ldev_inode_off.inode_number), (32, s + ldev_inode_off.nlink),
   (32, s + ldev_inode_off.rdev), (32, s + ldev_inode_off.xattr)]

/-- Modelled from the spec: the byte offsets of the fields of
`struct squashfs_symlink_inode` that `sqfs_swapin_symlink_inode` converts (the structure is
declared in squashfs_fs.h, which is not in src): the fields in their declared
order, each as wide as its conversion, packed without padding. -/
structure symlink_inode_layout where
  inode_type : Nat := 0
  mode : Nat := 2
  uid : Nat := 4
  guid : Nat := 6
  mtime : Nat := 8
  inode_number : Nat := 12
  nlink : Nat := 16
  symlink_size : Nat := 20

/-- The layout of `struct squashfs_symlink_inode`: every field at its default offset. -/
def symlink_inode_off : symlink_inode_layout := {}

/-- The function `sqfs_swapin_symlink_inode(struct squashfs_symlink_inode *s)`: memory after the
call, `s` being the address of the structure. -/
def sqfs_swapin_symlink_inode (h : Host) (mem : List Byte) (s : Nat) : List Byte :=
  let mem := sqfs_swapin16_internal h mem (s + symlink_inode_off.inode_type)
  let mem := sqfs_swapin16_internal h mem (s + symlink_inode_off.mode)
  let mem := sqfs_swapin16_internal h mem (s + symlink_inode_off.uid)
  let mem := sqfs_swapin16_internal h mem (s + symlink_inode_off.guid)
  let mem := sqfs_swapin32_internal h mem (s + symlink_inode_off.mtime)
  let mem := sqfs_swapin32_internal h mem (s + symlink_inode_off.inode_number)
  let mem := sqfs_swapin32_internal h mem (s + symlink_inode_off.nlink)
  let mem := sqfs_swapin32_internal h mem (s + symlink_inode_off.symlink_size)
  mem

/-- The calls in the body of `sqfs_swapin_symlink_inode`, in source order: the width of
each call and the address of the field it converts. -/
def symlink_inode_calls (s : Nat) : List (Nat × Nat) :=
  [(16, s + symlink_inode_off.inode_type), (16, s + symlink_inode_off.mode),
   (16, s + symlink_inode_off.uid), (16, s + symlink_inode_off.guid),
   (32, s + symlink_inode_off.mtime), (32, s + symlink_inode_off.inode_number),
   (32, s + symlink_inode_off.nlink), (32, s + symlink_inode_off.symlink_size)]

/-- Modelled from the spec: the byte offsets of the fields of
`struct squashfs_reg_inode` that `sqfs_swapin_reg_inode` converts (the structure is
declared in squashfs_fs.h, which is not in src): the fields in their declared
order, each as wide as its conversion, packed without padding. -/
structure reg_inode_layout where
  inode_type : Nat := 0
  mode : Nat := 2
  uid : Nat := 4
  guid : Nat := 6
  mtime : Nat := 8
  inode_number : Nat := 12
  start_block : Nat := 16
  fragment : Nat := 20
  offset : Nat := 24
  file_size : Nat := 28

/-- The layout of `struct squashfs_reg_inode`: every field at its default offset. -/
def reg_inode_off : reg_inode_layout := {}

/-- The function `sqfs_swapin_reg_inode(struct squashfs_reg_inode *s)`: memory after the
call, `s` being the address of the structure. -/
def sqfs_swapin_reg_inode (h : Host) (mem : List Byte) (s : Nat) : List Byte :=
  let mem := sqfs_swapin16_internal h mem (s + reg_inode_off.inode_type)
  let mem := sqfs_swapin16_internal h mem (s + reg_inode_off.mode)
  let mem := sqfs_swapin16_internal h mem (s + reg_inode_off.uid)
  let mem := sqfs_swapin16_internal h mem (s + reg_inode_off.guid)
  let mem := sqfs_swapin32_internal h mem (s + reg_inode_off.mtime)
  let mem := sqfs_swapin32_internal h mem (s + reg_inode_off.inode_number)
  let mem := sqfs_swapin32_internal h mem (s + reg_inode_off.start_block)
  let mem := sqfs_swapin32_internal h mem (s + reg_inode_off.fragment)
  let mem := sqfs_swapin32_internal h mem (s + reg_inode_off.offset)
  let mem := sqfs_swapin32_internal h mem (s + reg_inode_off.file_size)
  mem

/-- The calls in the body of `sqfs_swapin_reg_inode`, in source order: the width of
each call and the address of the field it converts. -/
def reg_inode_calls (s : Nat) : List (Nat × Nat) :=
  [(16, s + reg_inode_off.inode_type), (16, s + reg_inode_off.mode), (16, s + reg_inode_off.uid),
   (16, s + reg_inode_off.guid), (32, s + reg_inode_off.mtime),
   (32, s + reg_inode_off.inode_number), (32, s + reg_inode_off.start_block),
   (32, s + reg_inode_off.fragment), (32, s + reg_inode_off.offset),
   (32, s + reg_inode_off.file_size)]

/-- Modelled from the spec: the byte offsets of the fields of
`struct squashfs_lreg_inode` that `sqfs_swapin_lreg_inode` converts (the structure is
declared in squashfs_fs.h, which is not in src): the fields in their declared
order, each as wide as its conversion, packed without padding. -/
structure lreg_inode_layout where
  inode_type : Nat := 0
  mode : Nat := 2
  uid : Nat := 4
  guid : Nat := 6
  mtime : Nat := 8
  inode_number : Nat := 12
  start_block : Nat := 16
  file_size : Nat := 24
  sparse : Nat := 32
  nlink : Nat := 40
  fragment : Nat := 44
  offset : Nat := 48
  xattr : Nat := 52

/-- The layout of `struct squashfs_lreg_inode`: every field at its default offset. -/
def lreg_inode_off : lreg_inode_layout := {}

/-- The function `sqfs_swapin_lreg_inode(struct squashfs_lreg_inode *s)`: memory after the
call, `s` being the address of the structure. -/
def sqfs_swapin_lreg_inode (h : Host) (mem : List Byte) (s : Nat) : List Byte :=
  let mem := sqfs_swapin16_internal h mem (s + lreg_inode_off.inode_type)
  let mem := sqfs_swapin16_internal h mem (s + lreg_inode_off.mode)
  let mem := sqfs_swapin16_internal h mem (s + lreg_inode_off.uid)
  let mem := sqfs_swapin16_internal h mem (s + lreg_inode_off.guid)
  let mem := sqfs_swapin32_internal h mem (s + lreg_inode_off.mtime)
  let mem := sqfs_swapin32_internal h mem (s + lreg_inode_off.inode_number)
  let mem := sqfs_swapin64_internal h mem (s + lreg_inode_off.start_block)
  let mem := sqfs_swapin64_internal h mem (s + lreg_inode_off.file_size)
  let mem := sqfs_swapin64_internal h mem (s + lreg_inode_off.sparse)
  let mem := sqfs_swapin32_internal h mem (s + lreg_inode_off.nlink)
  let mem := sqfs_swapin32_internal h mem (s + lreg_inode_off.fragment)
  let mem := sqfs_swapin32_internal h mem (s + lreg_inode_off.offset)
  let mem := sqfs_swapin32_internal h mem (s + lreg_inode_off.xattr)
  mem

/-- The calls in the body of `sqfs_swapin_lreg_inode`, in source order: the width of
each call and the address of the field it converts. -/
def lreg_inode_calls (s : Nat) : List (Nat × Nat) :=
  [(16, s + lreg_inode_off.inode_type), (16, s + lreg_inode_off.mode),
   (16, s + lreg_inode_off.uid), (16, s + lreg_inode_off.guid), (32, s + lreg_inode_off.mtime),
   (32, s + lreg_inode_off.inode_number), (64, s + lreg_inode_off.start_block),
   (64, s + lreg_inode_off.file_size), (64, s + lreg_inode_off.sparse),
   (32, s + lreg_inode_off.nlink), (32, s + lreg_inode_off.fragment),
   (32, s + lreg_inode_off.offset), (32, s + lreg_inode_off.xattr)]

/-- Modelled from the spec: the byte offsets of the fields of
`struct squashfs_dir_inode` that `sqfs_swapin_dir_inode` converts (the structure is
declared in squashfs_fs.h, which is not in src): the fields in their declared
order, each as wide as its conversion, packed without padding. -/
structure dir_inode_layout where
  inode_type : Nat := 0
  mode : Nat := 2
  uid : Nat := 4
  guid : Nat := 6
  mtime : Nat := 8
  inode_number : Nat := 12
  start_block : Nat := 16
  nlink : Nat := 20
  file_size : Nat := 24
  offset : Nat := 26
  parent_inode : Nat := 28

/-- The layout of `struct squashfs_dir_inode`: every field at its default offset. -/
def dir_inode_off : dir_inode_layout := {}

/-- The function `sqfs_swapin_dir_inode(struct squashfs_dir_inode *s)`: memory after the
call, `s` being the address of the structure. -/
def sqfs_swapin_dir_inode (h : Host) (mem : List Byte) (s : Nat) : List Byte :=
  let mem := sqfs_swapin16_internal h mem (s + dir_inode_off.inode_type)
  let mem := sqfs_swapin16_internal h mem (s + dir_inode_off.mode)
  let mem := sqfs_swapin16_internal h mem (s + dir_inode_off.uid)
  let mem := sqfs_swapin16_internal h mem (s + dir_inode_off.guid)
  let mem := sqfs_swapin32_internal h mem (s + dir_inode_off.mtime)
  let mem := sqfs_swapin32_internal h mem (s + dir_inode_off.inode_number)
  let mem := sqfs_swapin32_internal h mem (s + dir_inode_off.start_block)
  let mem := sqfs_swapin32_internal h mem (s + dir_inode_off.nlink)
  let mem := sqfs_swapin16_internal h mem (s + dir_inode_off.file_size)
  let mem := sqfs_swapin16_internal h mem (s + dir_inode_off.offset)
  let mem := sqfs_swapin32_internal h mem (s + dir_inode_off.parent_inode)
  mem

/-- The calls in the body of `sqfs_swapin_dir_inode`, in source order: the width of
each call and the address of the field it converts. -/
def dir_inode_calls (s : Nat) : List (Nat × Nat) :=
  [(16, s + dir_inode_off.inode_type), (16, s + dir_inode_off.mode), (16, s + dir_inode_off.uid),
   (16, s + dir_inode_off.guid), (32, s + dir_inode_off.mtime),
   (32, s + dir_inode_off.inode_number), (32, s + dir_inode_off.start_block),
   (32, s + dir_inode_off.nlink), (16, s + dir_inode_off.file_size),
   (16, s + dir_inode_off.offset), (32, s + dir_inode_off.parent_inode)]

/-- Modelled from the spec: the byte offsets of the fields of
`struct squashfs_ldir_inode` that `sqfs_swapin_ldir_inode` converts (the structure is
declared in squashfs_fs.h, which is not in src): the fields in their declared
order, each as wide as its conversion, packed without padding. -/
structure ldir_inode_layout where
  inode_type : Nat := 0
  mode : Nat := 2
  uid : Nat := 4
  guid : Nat := 6
  mtime : Nat := 8
  inode_number : Nat := 12
  nlink : Nat := 16
  file_size : Nat := 20
  start_block : Nat := 24
  parent_inode : Nat := 28
  i_count : Nat := 32
  offset : Nat := 34
  xattr : Nat := 36

/-- The layout of `struct squashfs_ldir_inode`: every field at its default offset. -/
def ldir_inode_off : ldir_inode_layout := {}

/-- The function `sqfs_swapin_ldir_inode(struct squashfs_ldir_inode *s)`: memory after the
call, `s` being the address of the structure. -/
def sqfs_swapin_ldir_inode (h : Host) (mem : List Byte) (s : Nat) : List Byte :=
  let mem := sqfs_swapin16_internal h mem (s + ldir_inode_off.inode_type)
  let mem := sqfs_swapin16_internal h mem (s + ldir_inode_off.mode)
  let mem := sqfs_swapin16_internal h mem (s + ldir_inode_off.uid)
  let mem := sqfs_swapin16_internal h mem (s + ldir_inode_off.guid)
  let mem := sqfs_swapin32_internal h mem (s + ldir_inode_off.mtime)
  let mem := sqfs_swapin32_internal h mem (s + ldir_inode_off.inode_number)
  let mem := sqfs_swapin32_internal h mem (s + ldir_inode_off.nlink)
  let mem := sqfs_swapin32_internal h mem (s + ldir_inode_off.file_size)
  let mem := sqfs_swapin32_internal h mem (s + ldir_inode_off.start_block)
  let mem := sqfs_swapin32_internal h mem (s + ldir_inode_off.parent_inode)
  let mem := sqfs_swapin16_internal h mem (s + ldir_inode_off.i_count)
  let mem := sqfs_swapin16_internal h mem (s + ldir_inode_off.offset)
  let mem := sqfs_swapin32_internal h mem (s + ldir_inode_off.xattr)
  mem

/-- The calls in the body of `sqfs_swapin_ldir_inode`, in source order: the width of
each call and the address of the field it converts. -/
def ldir_inode_calls (s : Nat) : List (Nat × Nat) :=
  [(16, s + ldir_inode_off.inode_type), (16, s + ldir_inode_off.mode),
   (16, s + ldir_inode_off.uid), (16, s + ldir_inode_off.guid), (32, s + ldir_inode_off.mtime),
   (32, s + ldir_inode_off.inode_number), (32, s + ldir_inode_off.nlink),
   (32, s + ldir_inode_off.file_size), (32, s + ldir_inode_off.start_block),
   (32, s + ldir_inode_off.parent_inode), (16, s + ldir_inode_off.i_count),
   (16, s + ldir_inode_off.offset), (32, s + ldir_inode_off.xattr)]

/-- Modelled from the spec: the byte offsets of the fields of
`struct squashfs_dir_entry` that `sqfs_swapin_dir_entry` converts (the structure is
declared in squashfs_fs.h, which is not in src): the fields in their declared
order, each as wide as its conversion, packed without padding. -/
structure dir_entry_layout where
  offset : Nat := 0
  inode_number : Nat := 2
  type : Nat := 4
  size : Nat := 6

/-- The layout of `struct squashfs_dir_entry`: every field at its default offset. -/
def dir_entry_off : dir_entry_layout := {}

/-- The function `sqfs_swapin_dir_entry(struct squashfs_dir_entry *s)`: memory after the
call, `s` being the address of the structure. -/
def sqfs_swapin_dir_entry (h : Host) (mem : List Byte) (s : Nat) : List Byte :=
  let mem := sqfs_swapin16_internal h mem (s + dir_entry_off.offset)
  let mem := sqfs_swapin16_internal h mem (s + dir_entry_off.inode_number)
  let mem := sqfs_swapin16_internal h mem (s + dir_entry_off.type)
  let mem := sqfs_swapin16_internal h mem (s + dir_entry_off.size)
  mem

/-- The calls in the body of `sqfs_swapin_dir_entry`, in source order: the width of
each call and the address of the field it converts. -/
def dir_entry_calls (s : Nat) : List (Nat × Nat) :=
  [(16, s + dir_entry_off.offset), (16, s + dir_entry_off.inode_number),
   (16, s + dir_entry_off.type), (16, s + dir_entry_off.size)]

/-- Modelled from the spec: the byte offsets of the fields of
`struct squashfs_dir_header` that `sqfs_swapin_dir_header` converts (the structure is
declared in squashfs_fs.h, which is not in src): the fields in their declared
order, each as wide as its conversion, packed without padding. -/
structure dir_header_layout where
  count : Nat := 0
  start_block : Nat := 4
  inode_number : Nat := 8

/-- The layout of `struct squashfs_dir_header`: every field at its default offset. -/
def dir_header_off : dir_header_layout := {}

/-- The function `sqfs_swapin_dir_header(struct squashfs_dir_header *s)`: memory after the
call, `s` being the address of the structure. -/
def sqfs_swapin_dir_header (h : Host) (mem : List Byte) (s : Nat) : List Byte :=
  let mem := sqfs_swapin32_internal h mem (s + dir_header_off.count)
  let mem := sqfs_swapin32_internal h mem (s + dir_header_off.start_block)
  let mem := sqfs_swapin32_internal h mem (s + dir_header_off.inode_number)
  mem

/-- The calls in the body of `sqfs_swapin_dir_header`, in source order: the width of
each call and the address of the field it converts. -/
def dir_header_calls (s : Nat) : List (Nat × Nat) :=
  [(32, s + dir_header_off.count), (32, s + dir_header_off.start_block),
   (32, s + dir_header_off.inode_number)]

/-- Modelled from the spec: the byte offsets of the fields of
`struct squashfs_fragment_entry` that `sqfs_swapin_fragment_entry` converts (the structure is
declared in squashfs_fs.h, which is not in src): the fields in their declared
order, each as wide as its conversion, packed without padding. -/
structure fragment_entry_layout where
  start_block : Nat := 0
  size : Nat := 8

/-- The layout of `struct squashfs_fragment_entry`: every field at its default offset. -/
def fragment_entry_off : fragment_entry_layout := {}

/-- The function `sqfs_swapin_fragment_entry(struct squashfs_fragment_entry *s)`: memory after the
call, `s` being the address of the structure. -/
def sqfs_swapin_fragment_entry (h : Host) (mem : List Byte) (s : Nat) : List Byte :=
  let mem := sqfs_swapin64_internal h mem (s + fragment_entry_off.start_block)
  let mem := sqfs_swapin32_internal h mem (s + fragment_entry_off.size)
  mem

/-- The calls in the body of `sqfs_swapin_fragment_entry`, in source order: the width of
each call and the address of the field it converts. -/
def fragment_entry_calls (s : Nat) : List (Nat × Nat) :=
  [(64, s + fragment_entry_off.start_block), (32, s + fragment_entry_off.size)]

/-- Modelled from the spec: the byte offsets of the fields of
`struct squashfs_xattr_entry` that `sqfs_swapin_xattr_entry` converts (the structure is
declared in squashfs_fs.h, which is not in src): the fields in their declared
order, each as wide as its conversion, packed without padding. -/
structure xattr_entry_layout where
  type : Nat := 0
  size : Nat := 2

/-- The layout of `struct squashfs_xattr_entry`: every field at its default offset. -/
def xattr_entry_off : xattr_entry_layout := {}

/-- The function `sqfs_swapin_xattr_entry(struct squashfs_xattr_entry *s)`: memory after the
call, `s` being the address of the structure. -/
def sqfs_swapin_xattr_entry (h : Host) (mem : List Byte) (s : Nat) : List Byte :=
  let mem := sqfs_swapin16_internal h mem (s + xattr_entry_off.type)
  let mem := sqfs_swapin16_internal h mem (s + xattr_entry_off.size)
  mem

/-- The calls in the body of `sqfs_swapin_xattr_entry`, in source order: the width of
each call and the address of the field it converts. -/
def xattr_entry_calls (s : Nat) : List (Nat × Nat) :=
  [(16, s + xattr_entry_off.type), (16, s + xattr_entry_off.size)]

/-- Modelled from the spec: the byte offsets of the fields of
`struct squashfs_xattr_val` that `sqfs_swapin_xattr_val` converts (the structure is
declared in squashfs_fs.h, which is not in src): the fields in their declared
order, each as wide as its conversion, packed without padding. -/
structure xattr_val_layout where
  vsize : Nat := 0

/-- The layout of `struct squashfs_xattr_val`: every field at its default offset. -/
def xattr_val_off : xattr_val_layout := {}

/-- The function `sqfs_swapin_xattr_val(struct squashfs_xattr_val *s)`: memory after the
call, `s` being the address of the structure. -/
def sqfs_swapin_xattr_val (h : Host) (mem : List Byte) (s : Nat) : List Byte :=
  let mem := sqfs_swapin32_internal h mem (s + xattr_val_off.vsize)
  mem

/-- The calls in the body of `sqfs_swapin_xattr_val`, in source order: the width of
each call and the address of the field it converts. -/
def xattr_val_calls (s : Nat) : List (Nat × Nat) :=
  [(32, s + xattr_val_off.vsize)]

/-- Modelled from the spec: the byte offsets of the fields of
`struct squashfs_xattr_id` that `sqfs_swapin_xattr_id` converts (the structure is
declared in squashfs_fs.h, which is not in src): the fields in their declared
order, each as wide as its conversion, packed without padding. -/
structure xattr_id_layout where
  xattr : Nat := 0
  count : Nat := 8
  size : Nat := 12

/-- The layout of `struct squashfs_xattr_id`: every field at its default offset. -/
def xattr_id_off : xattr_id_layout := {}

/-- The function `sqfs_swapin_xattr_id(struct squashfs_xattr_id *s)`: memory after the
call, `s` being the address of the structure. -/
def sqfs_swapin_xattr_id (h : Host) (mem : List Byte) (s : Nat) : List Byte :=
  let mem := sqfs_swapin64_internal h mem (s + xattr_id_off.xattr)
  let mem := sqfs_swapin32_internal h mem (s + xattr_id_off.count)
  let mem := sqfs_swapin32_internal h mem (s + xattr_id_off.size)
  mem

/-- The calls in the body of `sqfs_swapin_xattr_id`, in source order: the width of
each call and the address of the field it converts. -/
def xattr_id_calls (s : Nat) : List (Nat × Nat) :=
  [(64, s + xattr_id_off.xattr), (32, s + xattr_id_off.count), (32, s + xattr_id_off.size)]

/-- Modelled from the spec: the byte offsets of the fields of
`struct squashfs_xattr_id_table` that `sqfs_swapin_xattr_id_table` converts (the structure is
declared in squashfs_fs.h, which is not in src): the fields in their declared
order, each as wide as its conversion, packed without padding. -/
structure xattr_id_table_layout where
  xattr_table_start : Nat := 0
  xattr_ids : Nat := 8
  unused : Nat := 12

/-- The layout of `struct squashfs_xattr_id_table`: every field at its default offset. -/
def xattr_id_table_off : xattr_id_table_layout := {}

/-- The function `sqfs_swapin_xattr_id_table(struct squashfs_xattr_id_table *s)`: memory after the
call, `s` being the address of the structure. -/
def sqfs_swapin_xattr_id_table (h : Host) (mem : List Byte) (s : Nat) : List Byte :=
  let mem := sqfs_swapin64_internal h mem (s + xattr_id_table_off.xattr_table_start)
  let mem := sqfs_swapin32_internal h mem (s + xattr_id_table_off.xattr_ids)
  let mem := sqfs_swapin32_internal h mem (s + xattr_id_table_off.unused)
  mem

/-- The calls in the body of `sqfs_swapin_xattr_id_table`, in source order: the width of
each call and the address of the field it converts. -/
def xattr_id_table_calls (s : Nat) : List (Nat × Nat) :=
  [(64, s + xattr_id_table_off.xattr_table_start), (32, s + xattr_id_table_off.xattr_ids),
   (32, s + xattr_id_table_off.unused)]

/-- Modelled from the spec: the fields of `struct squashfs_base_inode`, the
header every inode variant starts with (squashfs_fs.h is not in src), each
holding the value the host reads. -/
structure squashfs_base_inode where
  inode_type : Nat
  mode : Nat
  uid : Nat
  guid : Nat
  mtime : Nat
  inode_number : Nat
  deriving DecidableEq, Repr

/-- The header field values `s->inode_type`, `s->mode`, ... the host reads from
the inode at address `s`. -/
def read_base_inode (o : ByteOrder) (mem : List Byte) (s : Nat) : squashfs_base_inode :=
  { inode_type := load o 16 mem (s + base_inode_off.inode_type)
    mode := load o 16 mem (s + base_inode_off.mode)
    uid := load o 16 mem (s + base_inode_off.uid)
    guid := load o 16 mem (s + base_inode_off.guid)
    mtime := load o 32 mem (s + base_inode_off.mtime)
    inode_number := load o 32 mem (s + base_inode_off.inode_number) }

/-- Modelled from the spec: the magic number of the format, `0x73717368`
(`SQUASHFS_MAGIC` of squashfs_fs.h, which is not in src). -/
def SQUASHFS_MAGIC : Nat := 0x73717368

/-- The constant `SQFS_MAGIC_SWAP` of swap.h. -/
def SQFS_MAGIC_SWAP : Nat := 0x68737173

/-! ## decompress.c -/

/-- The build switches decompress.c tests with `#ifdef`. -/
structure Config where
  ENABLE_ZLIB : Bool
  ENABLE_XZ : Bool
  ENABLE_LZO : Bool
  ENABLE_LZ4 : Bool
  ENABLE_ZSTD : Bool
  USE_LIBDEFLATE : Bool
  USE_SYSTEM_XZ : Bool
  deriving DecidableEq, Repr

/-- Modelled from the spec: the result kinds of `sqfs_err` that decompress.c
returns (the enumeration is declared in common.h, which is not in src):
success and the single error kind. -/
inductive sqfs_err where
  | SQFS_OK
  | SQFS_ERR
  deriving DecidableEq, Repr

open sqfs_err

/-- Modelled from the spec: the reserved unknown compression-type code of
squashfs_fs.h (not in src).  A `sqfs_compression_type` is an integer. -/
def SQFS_COMP_UNKNOWN : Int := 0
/-- Modelled from the spec: compression-type code 1, zlib (squashfs_fs.h is not in src). -/
def ZLIB_COMPRESSION : Int := 1
/-- Modelled from the spec: compression-type code 2, lzma (squashfs_fs.h is not in src). -/
def LZMA_COMPRESSION : Int := 2
/-- Modelled from the spec: compression-type code 3, lzo (squashfs_fs.h is not in src). -/
def LZO_COMPRESSION : Int := 3
/-- Modelled from the spec: compression-type code 4, xz (squashfs_fs.h is not in src). -/
def XZ_COMPRESSION : Int := 4
/-- Modelled from the spec: compression-type code 5, lz4 (squashfs_fs.h is not in src). -/
def LZ4_COMPRESSION : Int := 5
/-- Modelled from the spec: compression-type code 6, zstd (squashfs_fs.h is not in src). -/
def ZSTD_COMPRESSION : Int := 6

/-- The success code `Z_OK` of `zlib.h`. -/
def Z_OK : Int := 0
/-- The success code `LZMA_OK` of `lzma.h`. -/
def LZMA_OK : Int := 0
/-- The success code `LZO_E_OK` of `lzo/lzoconf.h`. -/
def LZO_E_OK : Int := 0
/-- The success code `LIBDEFLATE_SUCCESS` of `libdeflate.h`. -/
def LIBDEFLATE_SUCCESS : Int := 0

/-- What an external decode routine leaves behind: its return value, the
contents of the output buffer, and the value of its length out-parameter. -/
structure LibOut where
  ret : Int
  out : List Byte
  len : Nat

/-- The external library routines decompress.c calls.  Each takes the
arguments of the C call that carry data (buffers as byte lists, lengths as
numbers) and returns what it leaves behind. -/
structure Libs where
  /-- The C call `uncompress(dest, &destLen, source, sourceLen)`; `len` is `destLen` after. -/
  uncompress : List Byte → Nat → List Byte → Nat → LibOut
  /-- The C call `lzma_stream_buffer_decode(&memlimit, flags, NULL, in, &in_pos, in_size,
  out, &out_pos, out_size)`, arguments `memlimit flags in in_pos in_size out
  out_pos out_size`; `len` is `out_pos` after. -/
  lzma_stream_buffer_decode : Nat → Nat → List Byte → Nat → Nat → List Byte → Nat → Nat → LibOut
  /-- The C call `zig_xz_decode(in, insz, out, outsz)`; `len` is `*outsz` after. -/
  zig_xz_decode : List Byte → Nat → List Byte → Nat → LibOut
  /-- The C call `lzo1x_decompress_safe(in, insz, out, &lzout, NULL)`; `len` is `lzout` after. -/
  lzo1x_decompress_safe : List Byte → Nat → List Byte → Nat → LibOut
  /-- The C call `LZ4_decompress_safe(src, dst, compressedSize, dstCapacity)` with `int`
  sizes: the `int` it returns and the contents of `dst`. -/
  LZ4_decompress_safe : List Byte → List Byte → Int → Int → Int × List Byte
  /-- The C call `ZSTD_decompress(dst, dstCapacity, src, compressedSize)`: the `size_t`
  it returns and the contents of `dst`. -/
  ZSTD_decompress : List Byte → Nat → List Byte → Nat → Nat × List Byte
  /-- The C call `ZSTD_isError(code)`. -/
  ZSTD_isError : Nat → Bool
  /-- The C call `libdeflate_alloc_decompressor()`: the handle returned. -/
  libdeflate_alloc_decompressor : Nat
  /-- The C call `libdeflate_zlib_decompress(d, in, insz, out, out_nbytes_avail,
  actual_out_nbytes_ret)`, the last argument given as the value it points to
  before the call; `len` is that value after the call. -/
  libdeflate_zlib_decompress : Nat → List Byte → Nat → List Byte → Nat → Nat → LibOut

/-- What a decode wrapper leaves behind: the `sqfs_err` returned, the contents
of `out`, and `*outsz`. -/
structure DecodeResult where
  err : sqfs_err
  out : List Byte
  outsz : Nat

/-- Conversion of a `size_t` to `int` (32 bits, two's complement). -/
def toInt (n : Nat) : Int :=
  if n % 2 ^ 32 < 2 ^ 31 then ((n % 2 ^ 32 : Nat) : Int) else ((n % 2 ^ 32 : Nat) : Int) - 2 ^ 32

/-- The C function `sqfs_decompressor_zlib`, the `USE_LIBDEFLATE` variant.  The global
`ldef_decompressor` (`none` is `NULL`) is passed in and returned. -/
def sqfs_decompressor_zlib_libdeflate (L : Libs) (ldef_decompressor : Option Nat)
    (in_ : List Byte) (insz : Nat) (out : List Byte) (outsz : Nat) :
    DecodeResult × Option Nat :=
  let ldef_decompressor :=
    match ldef_decompressor with
    | none => some L.libdeflate_alloc_decompressor
    | some d => some d
  let r := L.libdeflate_zlib_decompress (ldef_decompressor.getD 0) in_ insz out outsz outsz
  if r.ret ≠ LIBDEFLATE_SUCCESS then
    (⟨SQFS_ERR, r.out, r.len⟩, ldef_decompressor)
  else
    (⟨SQFS_OK, r.out, r.len⟩, ldef_decompressor)

/-- The C function `sqfs_decompressor_zlib`, the variant calling `uncompress` of zlib. -/
def sqfs_decompressor_zlib (L : Libs) (in_ : List Byte) (insz : Nat) (out : List Byte)
    (outsz : Nat) : DecodeResult :=
  let zout := outsz
  let r := L.uncompress out zout in_ insz
  if r.ret ≠ Z_OK then
    ⟨SQFS_ERR, r.out, outsz⟩
  else
    ⟨SQFS_OK, r.out, r.len⟩

/-- The C function `sqfs_decompressor_xz`, the `USE_SYSTEM_XZ` variant. -/
def sqfs_decompressor_xz (L : Libs) (in_ : List Byte) (insz : Nat) (out : List Byte)
    (outsz : Nat) : DecodeResult :=
  let memlimit := 2 ^ 64 - 1
  let inpos := 0
  let outpos := 0
  let r := L.lzma_stream_buffer_decode memlimit 0 in_ inpos insz out outpos outsz
  if r.ret ≠ LZMA_OK then
    ⟨SQFS_ERR, r.out, outsz⟩
  else
    ⟨SQFS_OK, r.out, r.len⟩

/-- The C function `sqfs_decompressor_xz`, the variant calling `zig_xz_decode`, which
receives `outsz` itself. -/
def sqfs_decompressor_xz_zig (L : Libs) (in_ : List Byte) (insz : Nat) (out : List Byte)
    (outsz : Nat) : DecodeResult :=
  let r := L.zig_xz_decode in_ insz out outsz
  if r.ret ≠ 0 then
    ⟨SQFS_ERR, r.out, r.len⟩
  else
    ⟨SQFS_OK, r.out, r.len⟩

/-- The function `sqfs_decompressor_lzo`. -/
def sqfs_decompressor_lzo (L : Libs) (in_ : List Byte) (insz : Nat) (out : List Byte)
    (outsz : Nat) : DecodeResult :=
  let lzout := outsz
  let r := L.lzo1x_decompress_safe in_ insz out lzout
  if r.ret ≠ LZO_E_OK then
    ⟨SQFS_ERR, r.out, outsz⟩
  else
    ⟨SQFS_OK, r.out, r.len⟩

/-- The function `sqfs_decompressor_lz4`; `insz` and `*outsz` are converted to
`int` by the call, and `lz4out` back to `size_t` by the assignment. -/
def sqfs_decompressor_lz4 (L : Libs) (in_ : List Byte) (insz : Nat) (out : List Byte)
    (outsz : Nat) : DecodeResult :=
  let r := L.LZ4_decompress_safe in_ out (toInt insz) (toInt outsz)
  let lz4out := r.1
  if lz4out < 0 then
    ⟨SQFS_ERR, r.2, outsz⟩
  else
    ⟨SQFS_OK, r.2, lz4out.toNat⟩

/-- The function `sqfs_decompressor_zstd`. -/
def sqfs_decompressor_zstd (L : Libs) (in_ : List Byte) (insz : Nat) (out : List Byte)
    (outsz : Nat) : DecodeResult :=
  let r := L.ZSTD_decompress out outsz in_ insz
  let zstdout := r.1
  if L.ZSTD_isError zstdout then
    ⟨SQFS_ERR, r.2, outsz⟩
  else
    ⟨SQFS_OK, r.2, zstdout⟩

/-- The decode functions whose address `sqfs_decompressor_get` can return. -/
inductive sqfs_decompressor where
  | zlib
  | xz
  | lzo
  | lz4
  | zstd
  deriving DecidableEq, Repr

/-- The C function `sqfs_decompressor_get`: the `switch` over `type`, each `case` present
only when its backend is enabled; `none` is `NULL`. -/
def sqfs_decompressor_get (cfg : Config) (type : Int) : Option sqfs_decompressor :=
  if cfg.ENABLE_ZLIB = true ∧ type = ZLIB_COMPRESSION then some .zlib
  else if cfg.ENABLE_XZ = true ∧ type = XZ_COMPRESSION then some .xz
  else if cfg.ENABLE_LZO = true ∧ type = LZO_COMPRESSION then some .lzo
  else if cfg.ENABLE_LZ4 = true ∧ type = LZ4_COMPRESSION then some .lz4
  else if cfg.ENABLE_ZSTD = true ∧ type = ZSTD_COMPRESSION then some .zstd
  else none

/-- The C function `memset(types, c, n * sizeof(*types))` for the zero byte `c`: the first
`n` entries of the array become `c`. -/
def memset (types : List Int) (c : Int) (n : Nat) : List Int :=
  List.replicate (min n types.length) c ++ types.drop n

/-- One guarded statement `#ifdef X  types[i++] = T;  #endif` on the pair of
the array and `i`. -/
def emit (enabled : Bool) (t : Int) (st : List Int × Nat) : List Int × Nat :=
  if enabled then (st.1.set st.2 t, st.2 + 1) else st

/-- The C function `sqfs_compression_supported(types)`: the array after the call and the
final value of the local `i`.  `SQFS_COMP_MAX` (declared outside src) is a
parameter. -/
def sqfs_compression_supported (cfg : Config) (SQFS_COMP_MAX : Nat) (types : List Int) :
    List Int × Nat :=
  let st := (memset types SQFS_COMP_UNKNOWN SQFS_COMP_MAX, 0)
  let st := emit cfg.ENABLE_LZO LZO_COMPRESSION st
  let st := emit cfg.ENABLE_XZ XZ_COMPRESSION st
  let st := emit cfg.ENABLE_ZLIB ZLIB_COMPRESSION st
  let st := emit cfg.ENABLE_LZ4 LZ4_COMPRESSION st
  let st := emit cfg.ENABLE_ZSTD ZSTD_COMPRESSION st
  st

/-- The entries `sqfs_compression_supported` wrote by its assignments
`types[i++] = ...`: the first `i` entries of the array. -/
def supported_list (cfg : Config) (SQFS_COMP_MAX : Nat) (types : List Int) : List Int :=
  let r := sqfs_compression_supported cfg SQFS_COMP_MAX types
  r.1.take r.2

/-- The codes `sqfs_compression_supported` can write, in the order of its
assignments in the source: lzo, xz, zlib, lz4, zstd. -/
def source_order : List Int :=
  [LZO_COMPRESSION, XZ_COMPRESSION, ZLIB_COMPRESSION, LZ4_COMPRESSION, ZSTD_COMPRESSION]

/-- A stand-in for the external libraries in which every routine reports
success together with a length one above the capacity it was given. -/
def overLibs : Libs where
  uncompress := fun dest destLen _ _ => ⟨Z_OK, dest, destLen + 1⟩
  lzma_stream_buffer_decode := fun _ _ _ _ _ out _ out_size => ⟨LZMA_OK, out, out_size + 1⟩
  zig_xz_decode := fun _ _ out outsz => ⟨0, out, outsz + 1⟩
  lzo1x_decompress_safe := fun _ _ out lzout => ⟨LZO_E_OK, out, lzout + 1⟩
  LZ4_decompress_safe := fun _ dst _ dstCapacity => (dstCapacity + 1, dst)
  ZSTD_decompress := fun dst dstCapacity _ _ => (dstCapacity + 1, dst)
  ZSTD_isError := fun _ => false
  libdeflate_alloc_decompressor := 1
  libdeflate_zlib_decompress := fun _ _ _ out avail _ => ⟨LIBDEFLATE_SUCCESS, out, avail + 1⟩

/-- A stand-in for the external libraries that honours the capacity it is
given: every routine copies its input to the output when it fits and reports
its length, and fails (return value `-1`, for `ZSTD_decompress` the largest
`size_t`) when it does not. -/
def storedLibs : Libs where
  uncompress := fun dest destLen source sourceLen =>
    if sourceLen ≤ destLen then ⟨Z_OK, source.take sourceLen, sourceLen⟩ else ⟨-1, dest, destLen⟩
  lzma_stream_buffer_decode := fun _ _ in_ _ in_size out out_pos out_size =>
    if in_size ≤ out_size then ⟨LZMA_OK, in_.take in_size, in_size⟩ else ⟨-1, out, out_pos⟩
  zig_xz_decode := fun in_ insz out outsz =>
    if insz ≤ outsz then ⟨0, in_.take insz, insz⟩ else ⟨1, out, outsz⟩
  lzo1x_decompress_safe := fun in_ insz out lzout =>
    if insz ≤ lzout then ⟨LZO_E_OK, in_.take insz, insz⟩ else ⟨-1, out, lzout⟩
  LZ4_decompress_safe := fun src dst compressedSize dstCapacity =>
    if 0 ≤ compressedSize ∧ compressedSize ≤ dstCapacity then
      (compressedSize, src.take compressedSize.toNat)
    else (-1, dst)
  ZSTD_decompress := fun dst dstCapacity src compressedSize =>
    if compressedSize ≤ dstCapacity then (compressedSize, src.take compressedSize)
    else (2 ^ 64 - 1, dst)
  ZSTD_isError := fun code => decide (2 ^ 64 - 120 < code)
  libdeflate_alloc_decompressor := 1
  libdeflate_zlib_decompress := fun _ in_ insz out avail actual =>
    if insz ≤ avail then ⟨LIBDEFLATE_SUCCESS, in_.take insz, insz⟩ else ⟨3, out, actual⟩

/-- For one call (input, output buffer, capacity `cap`, handle `g`), every
library routine that reports success reports a length of at most `cap`. -/
def honoursCapacity (L : Libs) (in_ : List Byte) (insz : Nat) (out : List Byte) (cap : Nat)
    (g : Option Nat) : Prop :=
  ((L.uncompress out cap in_ insz).ret = Z_OK → (L.uncompress out cap in_ insz).len ≤ cap)
  ∧ ((L.lzma_stream_buffer_decode (2 ^ 64 - 1) 0 in_ 0 insz out 0 cap).ret = LZMA_OK →
      (L.lzma_stream_buffer_decode (2 ^ 64 - 1) 0 in_ 0 insz out 0 cap).len ≤ cap)
  ∧ ((L.lzo1x_decompress_safe in_ insz out cap).ret = LZO_E_OK →
      (L.lzo1x_decompress_safe in_ insz out cap).len ≤ cap)
  ∧ ((L.LZ4_decompress_safe in_ out (toInt insz) (toInt cap)).1 ≤ (cap : Int))
  ∧ (L.ZSTD_isError (L.ZSTD_decompress out cap in_ insz).1 = false →
      (L.ZSTD_decompress out cap in_ insz).1 ≤ cap)
  ∧ ((L.zig_xz_decode in_ insz out cap).ret = 0 → (L.zig_xz_decode in_ insz out cap).len ≤ cap)
  ∧ ((L.libdeflate_zlib_decompress (g.getD L.libdeflate_alloc_decompressor)
        in_ insz out cap cap).ret = LIBDEFLATE_SUCCESS →
      (L.libdeflate_zlib_decompress (g.getD L.libdeflate_alloc_decompressor)
        in_ insz out cap cap).len ≤ cap)

/-- Calling, in the build `cfg`, the function a `sqfs_decompressor` points to:
the variant of `sqfs_decompressor_zlib` and of `sqfs_decompressor_xz` is the one
the build compiles.  The global `ldef_decompressor` is passed in and returned. -/
def call_decompressor (cfg : Config) (L : Libs) (d : sqfs_decompressor) (g : Option Nat)
    (in_ : List Byte) (insz : Nat) (out : List Byte) (outsz : Nat) :
    DecodeResult × Option Nat :=
  match d with
  | .zlib =>
    if cfg.USE_LIBDEFLATE then sqfs_decompressor_zlib_libdeflate L g in_ insz out outsz
    else (sqfs_decompressor_zlib L in_ insz out outsz, g)
  | .xz =>
    if cfg.USE_SYSTEM_XZ then (sqfs_decompressor_xz L in_ insz out outsz, g)
    else (sqfs_decompressor_xz_zig L in_ insz out outsz, g)
  | .lzo => (sqfs_decompressor_lzo L in_ insz out outsz, g)
  | .lz4 => (sqfs_decompressor_lz4 L in_ insz out outsz, g)
  | .zstd => (sqfs_decompressor_zstd L in_ insz out outsz, g)

/-- The contract of the external libraries for one payload `x`, relative to a
compressor `compress` (`compress t x` is the compressed form of `x` for the
compression type `t`): given the compressed form with its true length and the
capacity `cap`, each decode routine reports success and the length of `x` and
leaves `x` in the first bytes of the output buffer. -/
def libsRecover (L : Libs) (compress : Int → List Byte → List Byte) (x out : List Byte)
    (cap : Nat) (g : Option Nat) : Prop :=
  ((L.uncompress out cap (compress ZLIB_COMPRESSION x)
        (compress ZLIB_COMPRESSION x).length).ret = Z_OK
    ∧ (L.uncompress out cap (compress ZLIB_COMPRESSION x)
        (compress ZLIB_COMPRESSION x).length).len = x.length
    ∧ (L.uncompress out cap (compress ZLIB_COMPRESSION x)
        (compress ZLIB_COMPRESSION x).length).out.take x.length = x)
  ∧ ((L.libdeflate_zlib_decompress (g.getD L.libdeflate_alloc_decompressor)
        (compress ZLIB_COMPRESSION x) (compress ZLIB_COMPRESSION x).length out cap cap).ret
        = LIBDEFLATE_SUCCESS
    ∧ (L.libdeflate_zlib_decompress (g.getD L.libdeflate_alloc_decompressor)
        (compress ZLIB_COMPRESSION x) (compress ZLIB_COMPRESSION x).length out cap cap).len
        = x.length
    ∧ (L.libdeflate_zlib_decompress (g.getD L.libdeflate_alloc_decompressor)
        (compress ZLIB_COMPRESSION x) (compress ZLIB_COMPRESSION x).length out cap
        cap).out.take x.length = x)
  ∧ ((L.lzma_stream_buffer_decode (2 ^ 64 - 1) 0 (compress XZ_COMPRESSION x) 0
        (compress XZ_COMPRESSION x).length out 0 cap).ret = LZMA_OK
    ∧ (L.lzma_stream_buffer_decode (2 ^ 64 - 1) 0 (compress XZ_COMPRESSION x) 0
        (compress XZ_COMPRESSION x).length out 0 cap).len = x.length
    ∧ (L.lzma_stream_buffer_decode (2 ^ 64 - 1) 0 (compress XZ_COMPRESSION x) 0
        (compress XZ_COMPRESSION x).length out 0 cap).out.take x.length = x)
  ∧ ((L.zig_xz_decode (compress XZ_COMPRESSION x)
        (compress XZ_COMPRESSION x).length out cap).ret = 0
    ∧ (L.zig_xz_decode (compress XZ_COMPRESSION x)
        (compress XZ_COMPRESSION x).length out cap).len = x.length
    ∧ (L.zig_xz_decode (compress XZ_COMPRESSION x)
        (compress XZ_COMPRESSION x).length out cap).out.take x.length = x)
  ∧ ((L.lzo1x_decompress_safe (compress LZO_COMPRESSION x)
        (compress LZO_COMPRESSION x).length out cap).ret = LZO_E_OK
    ∧ (L.lzo1x_decompress_safe (compress LZO_COMPRESSION x)
        (compress LZO_COMPRESSION x).length out cap).len = x.length
    ∧ (L.lzo1x_decompress_safe (compress LZO_COMPRESSION x)
        (compress LZO_COMPRESSION x).length out cap).out.take x.length = x)
  ∧ ((L.LZ4_decompress_safe (compress LZ4_COMPRESSION x) out
        ((compress LZ4_COMPRESSION x).length : Int) (cap : Int)).1 = (x.length : Int)
    ∧ (L.LZ4_decompress_safe (compress LZ4_COMPRESSION x) out
        ((compress LZ4_COMPRESSION x).length : Int) (cap : Int)).2.take x.length = x)
  ∧ ((L.ZSTD_decompress out cap (compress ZSTD_COMPRESSION x)
        (compress ZSTD_COMPRESSION x).length).1 = x.length
    ∧ L.ZSTD_isError (L.ZSTD_decompress out cap (compress ZSTD_COMPRESSION x)
        (compress ZSTD_COMPRESSION x).length).1 = false
    ∧ (L.ZSTD_decompress out cap (compress ZSTD_COMPRESSION x)
        (compress ZSTD_COMPRESSION x).length).2.take x.length = x)

/-- The compressor that goes with `storedLibs`: the compressed form of a
payload is the payload itself, for every compression type. -/
def storedCompress (_t : Int) (x : List Byte) : List Byte := x

/-- A stand-in for the external libraries whose `libdeflate_zlib_decompress`
reports, as the output length, the handle it was called with, and whose
`libdeflate_alloc_decompressor` returns the handle 7. -/
def handleLibs : Libs :=
  { storedLibs with
    libdeflate_alloc_decompressor := 7
    libdeflate_zlib_decompress := fun d _ _ out _ _ => ⟨LIBDEFLATE_SUCCESS, out, d⟩ }

/-- A sequence of calls of `sqfs_decompressor_zlib` in the `USE_LIBDEFLATE`
build, each given by its arguments `(in, insz, out, *outsz)`, the global
`ldef_decompressor` passing from each call to the next: the results in call
order and the global after the last call. -/
def zlib_libdeflate_calls (L : Libs) :
    Option Nat → List (List Byte × Nat × List Byte × Nat) → List DecodeResult × Option Nat
  | g, [] => ([], g)
  | g, c :: cs =>
    let r := sqfs_decompressor_zlib_libdeflate L g c.1 c.2.1 c.2.2.1 c.2.2.2
    let rest := zlib_libdeflate_calls L r.2 cs
    (r.1 :: rest.1, rest.2)

/-! ## Lemmas on the memory model -/

theorem readBytes_length (mem : List Byte) (a n : Nat) : (readBytes mem a n).length = n := by
  induction n generalizing a with
  | zero => rfl
  | succ n ih => simp [readBytes, ih]

theorem readBytes_succ_top (mem : List Byte) (a n : Nat) :
    readBytes mem a (n + 1) = readBytes mem a n ++ [readByte mem (a + n)] := by
  induction n generalizing a with
  | zero => simp [readBytes]
  | succ n ih =>
    rw [readBytes, ih (a + 1)]
    simp [readBytes, Nat.add_assoc, Nat.add_comm 1 n]

theorem readBytes_congr (m1 m2 : List Byte) (a n : Nat)
    (hpt : ∀ i, i < n → readByte m1 (a + i) = readByte m2 (a + i)) :
    readBytes m1 a n = readBytes m2 a n := by
  induction n generalizing a with
  | zero => rfl
  | succ n ih =>
    simp only [readBytes]
    rw [ih (a + 1) (fun i hi => by
      have := hpt (i + 1) (by omega)
      simpa [Nat.add_assoc, Nat.add_comm 1 i] using this)]
    have h0 := hpt 0 (by omega)
    simp only [Nat.add_zero] at h0
    rw [h0]

theorem leValue_append (xs ys : List Byte) :
    leValue (xs ++ ys) = leValue xs + 256 ^ xs.length * leValue ys := by
  induction xs with
  | nil => simp [leValue]
  | cons x xs ih =>
    show x.val + 256 * leValue (xs ++ ys) = leValue (x :: xs) + 256 ^ (x :: xs).length * leValue ys
    rw [ih]
    simp only [leValue, List.length_cons, pow_succ]
    ring

theorem leValue_lt (bs : List Byte) : leValue bs < 256 ^ bs.length := by
  induction bs with
  | nil => simp [leValue]
  | cons b bs ih =>
    have hb := b.isLt
    simp only [leValue, List.length_cons, pow_succ]
    omega

theorem toLEBytes_length (v n : Nat) : (toLEBytes v n).length = n := by
  induction n generalizing v with
  | zero => rfl
  | succ n ih => simp [toLEBytes, ih]

theorem toLEBytes_leValue (bs : List Byte) : toLEBytes (leValue bs) bs.length = bs := by
  induction bs with
  | nil => rfl
  | cons b bs ih =>
    have hb := b.isLt
    have h1 : (b.val + 256 * leValue bs) % 256 = b.val := by omega
    have h2 : (b.val + 256 * leValue bs) / 256 = leValue bs := by omega
    simp only [leValue, List.length_cons, toLEBytes, h1, h2, ih]

theorem leValue_toLEBytes (v n : Nat) : leValue (toLEBytes v n) = v % 256 ^ n := by
  induction n generalizing v with
  | zero => simp [toLEBytes, leValue, Nat.mod_one]
  | succ n ih =>
    simp only [toLEBytes, leValue, ih, pow_succ]
    rw [Nat.mul_comm (256 ^ n) 256, Nat.mod_mul]

theorem readByte_set (mem : List Byte) (a j : Nat) (b : Byte) :
    readByte (mem.set a b) j = if j = a ∧ a < mem.length then b else readByte mem j := by
  unfold readByte
  simp only [List.getD_eq_getElem?_getD, List.getElem?_set]
  by_cases h1 : a = j
  · subst h1
    by_cases h2 : a < mem.length
    · simp [h2]
    · simp [h2, List.getElem?_eq_none (Nat.le_of_not_lt h2)]
  · have h3 : ¬ j = a := fun h => h1 h.symm
    simp [h1, h3]

theorem writeBytes_length (mem : List Byte) (a : Nat) (bs : List Byte) :
    (writeBytes mem a bs).length = mem.length := by
  induction bs generalizing mem a with
  | nil => rfl
  | cons b bs ih => simp [writeBytes, ih]

theorem readByte_writeBytes_outside (mem : List Byte) (a : Nat) (bs : List Byte) (j : Nat)
    (hj : j < a ∨ a + bs.length ≤ j) :
    readByte (writeBytes mem a bs) j = readByte mem j := by
  induction bs generalizing mem a with
  | nil => rfl
  | cons b bs ih =>
    simp only [writeBytes, List.length_cons] at hj ⊢
    rw [ih (mem.set a b) (a + 1) (by omega), readByte_set]
    have : ¬ j = a := by omega
    simp [this]

theorem readBytes_writeBytes_self (mem : List Byte) (a : Nat) (bs : List Byte)
    (hin : a + bs.length ≤ mem.length) :
    readBytes (writeBytes mem a bs) a bs.length = bs := by
  induction bs generalizing mem a with
  | nil => rfl
  | cons b bs ih =>
    simp only [List.length_cons] at hin
    simp only [writeBytes, List.length_cons, readBytes]
    rw [ih (mem.set a b) (a + 1) (by simp; omega),
      readByte_writeBytes_outside _ _ _ _ (Or.inl (Nat.lt_succ_self a)), readByte_set]
    have : a < mem.length := by omega
    simp [this]

theorem readBytes_writeBytes_disjoint (mem : List Byte) (a : Nat) (bs : List Byte) (a2 n : Nat)
    (hd : a2 + n ≤ a ∨ a + bs.length ≤ a2) :
    readBytes (writeBytes mem a bs) a2 n = readBytes mem a2 n := by
  apply readBytes_congr
  intro i hi
  apply readByte_writeBytes_outside
  omega

theorem ext_readByte (m1 m2 : List Byte) (hlen : m1.length = m2.length)
    (hpt : ∀ j, j < m1.length → readByte m1 j = readByte m2 j) : m1 = m2 := by
  apply List.ext_getElem hlen
  intro j h1 h2
  have := hpt j h1
  simpa [readByte, List.getD_eq_getElem?_getD, List.getElem?_eq_getElem h1,
    List.getElem?_eq_getElem h2] using this

theorem writeBytes_readBytes (mem : List Byte) (a n : Nat) :
    writeBytes mem a (readBytes mem a n) = mem := by
  induction n generalizing mem a with
  | zero => rfl
  | succ n ih =>
    simp only [readBytes, writeBytes]
    have hset : mem.set a (readByte mem a) = mem := by
      apply ext_readByte _ _ (by simp)
      intro j _
      rw [readByte_set]
      by_cases h : j = a ∧ a < mem.length
      · simp [h.1, h.2]
      · simp [h]
    rw [hset, ih]

/-! ## Lemmas on the conversion primitives -/

theorem SWAP_loop_exact (BITS : Nat) (mem : List Byte) (v : Nat) (k r iters : Nat)
    (hfit : r * 256 ^ k + leValue (readBytes mem v k) < 2 ^ BITS) :
    SWAP_loop BITS mem v k r iters = (r * 256 ^ k + leValue (readBytes mem v k), iters + k) := by
  induction k generalizing r iters with
  | zero => simp [SWAP_loop, readBytes, leValue]
  | succ k ih =>
    have hval : leValue (readBytes mem v (k + 1)) =
        leValue (readBytes mem v k) + 256 ^ k * (readByte mem (v + k)).val := by
      rw [readBytes_succ_top, leValue_append, readBytes_length]
      simp [leValue]
    rw [hval] at hfit ⊢
    have hpos : 0 < 256 ^ k := Nat.pow_pos (by decide)
    have hexp : r * 256 ^ (k + 1) = (r * 256) * 256 ^ k := by rw [pow_succ]; ring
    have hle : r * 256 + (readByte mem (v + k)).val ≤
        (r * 256 + (readByte mem (v + k)).val) * 256 ^ k := Nat.le_mul_of_pos_right _ hpos
    have hsum : (r * 256 + (readByte mem (v + k)).val) * 256 ^ k =
        (r * 256) * 256 ^ k + 256 ^ k * (readByte mem (v + k)).val := by ring
    have h2 : r * 256 + (readByte mem (v + k)).val < 2 ^ BITS := by omega
    have h1 : r * 256 < 2 ^ BITS := by omega
    have e1 : (r * 2 ^ 8) % 2 ^ BITS = r * 256 := by
      rw [show (2 : Nat) ^ 8 = 256 from rfl]; exact Nat.mod_eq_of_lt h1
    have e2 : (r * 256 + (readByte mem (v + k)).val) % 2 ^ BITS =
        r * 256 + (readByte mem (v + k)).val := Nat.mod_eq_of_lt h2
    simp only [SWAP_loop, e1, e2]
    rw [ih _ _ (by omega)]
    refine Prod.ext ?_ ?_
    · show _ = _
      omega
    · show _ = _
      omega

theorem pow256_le (BITS : Nat) : 256 ^ (BITS / 8) ≤ 2 ^ BITS := by
  rw [show (256 : Nat) = 2 ^ 8 from rfl, ← pow_mul]
  exact Nat.pow_le_pow_right (by decide) (Nat.mul_div_le BITS 8)

theorem SWAP_loop_result (BITS : Nat) (mem : List Byte) (v : Nat) :
    SWAP_loop BITS mem v (BITS / 8) 0 0 = (leValue (readBytes mem v (BITS / 8)), BITS / 8) := by
  have hlt := leValue_lt (readBytes mem v (BITS / 8))
  rw [readBytes_length] at hlt
  have hle := pow256_le BITS
  rw [SWAP_loop_exact BITS mem v (BITS / 8) 0 0 (by omega)]
  simp

theorem swab_eq (n x : Nat) : swab n x = leValue (toLEBytes x n).reverse := by
  induction n generalizing x with
  | zero => simp [swab, toLEBytes, leValue]
  | succ n ih =>
    simp only [swab, toLEBytes, List.reverse_cons, leValue_append, List.length_reverse,
      toLEBytes_length, leValue, ih]
    ring

theorem sqfs_swapin_portable_eq (o : ByteOrder) (BITS : Nat) (mem : List Byte) (v : Nat) :
    sqfs_swapin_portable o BITS mem v =
      writeBytes mem v (hostSwap o (readBytes mem v (BITS / 8))) := by
  have hlen := readBytes_length mem v (BITS / 8)
  have hrt := toLEBytes_leValue (readBytes mem v (BITS / 8))
  rw [hlen] at hrt
  unfold sqfs_swapin_portable store
  rw [SWAP_loop_result]
  cases o <;> simp [encode, hostSwap, hrt]

theorem sqfs_swapin_asm_eq (o : ByteOrder) (BITS : Nat) (mem : List Byte) (v : Nat) :
    sqfs_swapin_asm o BITS mem v =
      writeBytes mem v (hostSwap o (readBytes mem v (BITS / 8))) := by
  have hlen := readBytes_length mem v (BITS / 8)
  have hrt := toLEBytes_leValue (readBytes mem v (BITS / 8))
  rw [hlen] at hrt
  have hrt2 := toLEBytes_leValue (readBytes mem v (BITS / 8)).reverse
  rw [List.length_reverse, hlen] at hrt2
  unfold sqfs_swapin_asm store load
  cases o
  · simp [encode, decode, le_to_cpu, hostSwap, hrt]
  · simp [encode, decode, le_to_cpu, hostSwap, swab_eq, hrt, hrt2]

theorem sqfs_swapin_eq (h : Host) (BITS : Nat) (mem : List Byte) (v : Nat) :
    sqfs_swapin h BITS mem v =
      writeBytes mem v (hostSwap h.order (readBytes mem v (BITS / 8))) := by
  unfold sqfs_swapin
  split
  · exact sqfs_swapin_asm_eq _ _ _ _
  · exact sqfs_swapin_portable_eq _ _ _ _

theorem hostSwap_length (o : ByteOrder) (bs : List Byte) : (hostSwap o bs).length = bs.length := by
  cases o <;> simp [hostSwap]

theorem hostSwap_hostSwap (o : ByteOrder) (bs : List Byte) : hostSwap o (hostSwap o bs) = bs := by
  cases o <;> simp [hostSwap]

theorem decode_hostSwap (o : ByteOrder) (bs : List Byte) : decode o (hostSwap o bs) = leValue bs := by
  cases o <;> simp [hostSwap, decode]

theorem sqfs_swapin_length (h : Host) (BITS : Nat) (mem : List Byte) (v : Nat) :
    (sqfs_swapin h BITS mem v).length = mem.length := by
  rw [sqfs_swapin_eq, writeBytes_length]

theorem readBytes_sqfs_swapin_self (h : Host) (BITS : Nat) (mem : List Byte) (v : Nat)
    (hin : v + BITS / 8 ≤ mem.length) :
    readBytes (sqfs_swapin h BITS mem v) v (BITS / 8) =
      hostSwap h.order (readBytes mem v (BITS / 8)) := by
  have hl : (hostSwap h.order (readBytes mem v (BITS / 8))).length = BITS / 8 := by
    rw [hostSwap_length, readBytes_length]
  rw [sqfs_swapin_eq]
  have := readBytes_writeBytes_self mem v (hostSwap h.order (readBytes mem v (BITS / 8)))
    (by rw [hl]; exact hin)
  rw [hl] at this
  exact this

theorem readBytes_sqfs_swapin_disjoint (h : Host) (BITS : Nat) (mem : List Byte) (v a n : Nat)
    (hd : a + n ≤ v ∨ v + BITS / 8 ≤ a) :
    readBytes (sqfs_swapin h BITS mem v) a n = readBytes mem a n := by
  rw [sqfs_swapin_eq]
  apply readBytes_writeBytes_disjoint
  rw [hostSwap_length, readBytes_length]
  exact hd

theorem load_sqfs_swapin (h : Host) (BITS : Nat) (mem : List Byte) (v : Nat)
    (hin : v + BITS / 8 ≤ mem.length) :
    load h.order BITS (sqfs_swapin h BITS mem v) v = leValue (readBytes mem v (BITS / 8)) := by
  unfold load
  rw [readBytes_sqfs_swapin_self h BITS mem v hin, decode_hostSwap]

theorem writeBytes_overwrite (mem : List Byte) (a : Nat) (xs ys : List Byte)
    (hlen : xs.length = ys.length) :
    writeBytes (writeBytes mem a xs) a ys = writeBytes mem a ys := by
  apply ext_readByte
  · simp [writeBytes_length]
  · intro j hj
    rw [writeBytes_length, writeBytes_length] at hj
    by_cases hout : j < a ∨ a + ys.length ≤ j
    · rw [readByte_writeBytes_outside _ _ _ _ hout, readByte_writeBytes_outside _ _ _ _ hout,
        readByte_writeBytes_outside _ _ _ _ (by omega)]
    · have key : ∀ (m : List Byte), m.length = mem.length →
          readByte (writeBytes m a ys) j = ys.getD (j - a) 0 := by
        intro m hm
        clear hlen
        induction ys generalizing m a with
        | nil => simp at hout; omega
        | cons y ys ih =>
          simp only [List.length_cons] at hout
          simp only [writeBytes]
          by_cases hja : j = a
          · subst hja
            rw [readByte_writeBytes_outside _ _ _ _ (Or.inl (Nat.lt_succ_self j)), readByte_set]
            simp [hm, hj]
          · have h1 : j - a = (j - (a + 1)) + 1 := by omega
            rw [ih (a + 1) (by omega) (m.set a y) (by simp [hm]), h1]
            simp
      rw [key _ (writeBytes_length _ _ _), key _ rfl]

theorem sqfs_swapin_twice (h : Host) (BITS : Nat) (mem : List Byte) (v : Nat)
    (hin : v + BITS / 8 ≤ mem.length) :
    sqfs_swapin h BITS (sqfs_swapin h BITS mem v) v = mem := by
  rw [sqfs_swapin_eq h BITS (sqfs_swapin h BITS mem v), readBytes_sqfs_swapin_self h BITS mem v hin,
    hostSwap_hostSwap, sqfs_swapin_eq, writeBytes_overwrite, writeBytes_readBytes]
  rw [hostSwap_length]

theorem leValue_readBytes_sum (mem : List Byte) (v n : Nat) :
    leValue (readBytes mem v n) =
      ∑ i ∈ Finset.range n, (readByte mem (v + i)).val * 256 ^ i := by
  induction n with
  | zero => simp [readBytes, leValue]
  | succ n ih =>
    rw [readBytes_succ_top, leValue_append, readBytes_length, Finset.sum_range_succ, ih]
    simp only [leValue]
    ring

theorem decode_encode (o : ByteOrder) (n x : Nat) : decode o (encode o n x) = x % 256 ^ n := by
  cases o <;> simp [decode, encode, leValue_toLEBytes]

theorem encode_length (o : ByteOrder) (n x : Nat) : (encode o n x).length = n := by
  cases o <;> simp [encode, toLEBytes_length]

theorem load_store (o : ByteOrder) (BITS : Nat) (mem : List Byte) (v x : Nat)
    (hin : v + BITS / 8 ≤ mem.length) :
    load o BITS (store o BITS mem v x) v = x % 256 ^ (BITS / 8) := by
  unfold load store
  have := readBytes_writeBytes_self mem v (encode o (BITS / 8) x)
    (by rw [encode_length]; exact hin)
  rw [encode_length] at this
  rw [this, decode_encode]

theorem store_length (o : ByteOrder) (BITS : Nat) (mem : List Byte) (v x : Nat) :
    (store o BITS mem v x).length = mem.length := by
  unfold store
  rw [writeBytes_length]

theorem sqfs_swap16_eq (x : Nat) (hx : x < 2 ^ 16) :
    sqfs_swap16 x = (x % 256) * 256 + x / 256 := by
  unfold sqfs_swap16
  simp only [Nat.shiftRight_eq_div_pow, Nat.shiftLeft_eq]
  norm_num at hx ⊢
  omega

theorem sqfs_swap16_twice (x : Nat) (hx : x < 2 ^ 16) : sqfs_swap16 (sqfs_swap16 x) = x := by
  have hlt : (x % 256) * 256 + x / 256 < 2 ^ 16 := by
    norm_num at hx ⊢
    omega
  rw [sqfs_swap16_eq x hx, sqfs_swap16_eq _ hlt]
  norm_num at hx
  omega

/-! ## Lemmas on runs of conversions -/

theorem swapFields_cons (h : Host) (c : Nat × Nat) (calls : List (Nat × Nat)) (mem : List Byte) :
    swapFields h (c :: calls) mem = swapFields h calls (sqfs_swapin h c.1 mem c.2) := rfl

theorem swapFields_length (h : Host) (calls : List (Nat × Nat)) (mem : List Byte) :
    (swapFields h calls mem).length = mem.length := by
  induction calls generalizing mem with
  | nil => rfl
  | cons c calls ih => rw [swapFields_cons, ih, sqfs_swapin_length]

theorem readBytes_swapFields_disjoint (h : Host) (calls : List (Nat × Nat)) (mem : List Byte)
    (a n : Nat) (hd : ∀ c ∈ calls, a + n ≤ c.2 ∨ c.2 + c.1 / 8 ≤ a) :
    readBytes (swapFields h calls mem) a n = readBytes mem a n := by
  induction calls generalizing mem with
  | nil => rfl
  | cons c calls ih =>
    rw [swapFields_cons, ih _ (fun d hdm => hd d (List.mem_cons_of_mem _ hdm)),
      readBytes_sqfs_swapin_disjoint h c.1 mem c.2 a n (hd c (List.mem_cons_self _ _))]

theorem readBytes_swapFields_field (h : Host) (calls : List (Nat × Nat)) (mem : List Byte)
    (hpair : calls.Pairwise callsDisjoint)
    (hin : ∀ c ∈ calls, c.2 + c.1 / 8 ≤ mem.length) (c : Nat × Nat) (hc : c ∈ calls) :
    readBytes (swapFields h calls mem) c.2 (c.1 / 8) =
      hostSwap h.order (readBytes mem c.2 (c.1 / 8)) := by
  induction calls generalizing mem with
  | nil => cases hc
  | cons d calls ih =>
    rw [List.pairwise_cons] at hpair
    rw [swapFields_cons]
    rcases List.mem_cons.mp hc with rfl | hmem
    · rw [readBytes_swapFields_disjoint h calls _ _ _ (fun e he => hpair.1 e he),
        readBytes_sqfs_swapin_self h _ mem _ (hin c (List.mem_cons_self _ _))]
    · rw [ih _ hpair.2 (fun e he => by
          rw [sqfs_swapin_length]; exact hin e (List.mem_cons_of_mem _ he)) hmem,
        readBytes_sqfs_swapin_disjoint h d.1 mem d.2 c.2 (c.1 / 8)
          ((hpair.1 c hmem).symm)]

theorem load_swapFields (h : Host) (calls : List (Nat × Nat)) (mem : List Byte)
    (hpair : calls.Pairwise callsDisjoint)
    (hin : ∀ c ∈ calls, c.2 + c.1 / 8 ≤ mem.length) (c : Nat × Nat) (hc : c ∈ calls) :
    load h.order c.1 (swapFields h calls mem) c.2 = leValue (readBytes mem c.2 (c.1 / 8)) := by
  unfold load
  rw [readBytes_swapFields_field h calls mem hpair hin c hc, decode_hostSwap]

theorem sqfs_swapin_super_block_eq (h : Host) (mem : List Byte) (s : Nat) :
    sqfs_swapin_super_block h mem s = swapFields h (super_block_calls s) mem := rfl

/-! ## The conversion primitives: claims -/

/-- C1: for `BITS` in 16, 32, 64 and every buffer `b` of `BITS / 8` bytes, on a
little-endian and on a big-endian host alike, the value the host reads from the
location after the portable `sqfs_swapinBITS` ran on it is the little-endian
interpretation of the original bytes, the sum of `b[i] * 256 ^ i`; the loop
makes exactly `BITS / 8` iterations and its `BITS`-bit accumulator ends with
that same exact sum, so its shifts and additions lose no bit. -/
theorem sqfs_swapin_portable_le_value (o : ByteOrder) (BITS : Nat)
    (hB : BITS = 16 ∨ BITS = 32 ∨ BITS = 64) (b : List Byte) (hlen : b.length = BITS / 8) :
    load o BITS (sqfs_swapin_portable o BITS b 0) 0 =
        ∑ i ∈ Finset.range (BITS / 8), (readByte b i).val * 256 ^ i
      ∧ SWAP_loop BITS b 0 (BITS / 8) 0 0 =
        (∑ i ∈ Finset.range (BITS / 8), (readByte b i).val * 256 ^ i, BITS / 8) := by
  have hsum := leValue_readBytes_sum b 0 (BITS / 8)
  simp only [Nat.zero_add] at hsum
  have hin : 0 + BITS / 8 ≤ b.length := by omega
  constructor
  · have hl := load_sqfs_swapin ⟨o, false⟩ BITS b 0 hin
    simp only [sqfs_swapin, Bool.false_eq_true, if_false] at hl
    rw [hl, hsum]
  · rw [SWAP_loop_result, hsum]

theorem sqfs_swapin_portable_le_value_witness :
    ([0x68, 0x73, 0x71, 0x73] : List Byte).length = 32 / 8 ∧
    (load .bigEndian 32 (sqfs_swapin_portable .bigEndian 32 [0x68, 0x73, 0x71, 0x73] 0) 0 =
        ∑ i ∈ Finset.range (32 / 8), (readByte [0x68, 0x73, 0x71, 0x73] i).val * 256 ^ i
      ∧ SWAP_loop 32 [0x68, 0x73, 0x71, 0x73] 0 (32 / 8) 0 0 =
        (∑ i ∈ Finset.range (32 / 8), (readByte [0x68, 0x73, 0x71, 0x73] i).val * 256 ^ i,
          32 / 8)) :=
  ⟨rfl, sqfs_swapin_portable_le_value .bigEndian 32 (Or.inr (Or.inl rfl))
    [0x68, 0x73, 0x71, 0x73] rfl⟩

/-- C2: for every 96-byte buffer, on either host and in either build variant,
the nineteen field values the host reads after `sqfs_swapin_super_block` are
the little-endian decodings of the consecutive byte ranges of the original
buffer, in the order and with the widths magic (32), inode count (32),
modification time (32), block size (32), fragment count (32), compression type
(16), block-size log2 (16), flags (16), id-table count (16), major version
(16), minor version (16), root inode reference (64), bytes used (64), and the
six 64-bit table start offsets; the body is the run of nineteen calls, one per
field, each with the primitive of the field's width, no field twice. -/
theorem sqfs_swapin_super_block_fields (h : Host) (buf : List Byte) (hlen : buf.length = 96) :
    read_super_block h.order (sqfs_swapin_super_block h buf 0) 0 =
      { s_magic := leValue (readBytes buf 0 4)
        inodes := leValue (readBytes buf 4 4)
        mkfs_time := leValue (readBytes buf 8 4)
        block_size := leValue (readBytes buf 12 4)
        fragments := leValue (readBytes buf 16 4)
        compression := leValue (readBytes buf 20 2)
        block_log := leValue (readBytes buf 22 2)
        flags := leValue (readBytes buf 24 2)
        no_ids := leValue (readBytes buf 26 2)
        s_major := leValue (readBytes buf 28 2)
        s_minor := leValue (readBytes buf 30 2)
        root_inode := leValue (readBytes buf 32 8)
        bytes_used := leValue (readBytes buf 40 8)
        id_table_start := leValue (readBytes buf 48 8)
        xattr_id_table_start := leValue (readBytes buf 56 8)
        inode_table_start := leValue (readBytes buf 64 8)
        directory_table_start := leValue (readBytes buf 72 8)
        fragment_table_start := leValue (readBytes buf 80 8)
        lookup_table_start := leValue (readBytes buf 88 8) }
    ∧ sqfs_swapin_super_block h buf 0 = swapFields h (super_block_calls 0) buf
    ∧ super_block_calls 0 =
        [(32, 0), (32, 4), (32, 8), (32, 12), (32, 16), (16, 20), (16, 22), (16, 24), (16, 26),
         (16, 28), (16, 30), (64, 32), (64, 40), (64, 48), (64, 56), (64, 64), (64, 72),
         (64, 80), (64, 88)]
    ∧ ((super_block_calls 0).map Prod.snd).Nodup := by
  have key := load_swapFields h (super_block_calls 0) buf (by decide)
    (by rw [hlen]; decide)
  refine ⟨?_, rfl, rfl, by decide⟩
  rw [sqfs_swapin_super_block_eq]
  unfold read_super_block
  rw [squashfs_super_block.mk.injEq]
  refine ⟨?_, ?_, ?_, ?_, ?_, ?_, ?_, ?_, ?_, ?_, ?_, ?_, ?_, ?_, ?_, ?_, ?_, ?_, ?_⟩
  · exact key (32, 0) (by decide)
  · exact key (32, 4) (by decide)
  · exact key (32, 8) (by decide)
  · exact key (32, 12) (by decide)
  · exact key (32, 16) (by decide)
  · exact key (16, 20) (by decide)
  · exact key (16, 22) (by decide)
  · exact key (16, 24) (by decide)
  · exact key (16, 26) (by decide)
  · exact key (16, 28) (by decide)
  · exact key (16, 30) (by decide)
  · exact key (64, 32) (by decide)
  · exact key (64, 40) (by decide)
  · exact key (64, 48) (by decide)
  · exact key (64, 56) (by decide)
  · exact key (64, 64) (by decide)
  · exact key (64, 72) (by decide)
  · exact key (64, 80) (by decide)
  · exact key (64, 88) (by decide)

theorem sqfs_swapin_super_block_fields_witness :
    ([0x68, 0x73, 0x71, 0x73] ++ List.replicate 92 (0 : Byte)).length = 96
    ∧ (read_super_block .bigEndian (sqfs_swapin_super_block ⟨.bigEndian, true⟩
          ([0x68, 0x73, 0x71, 0x73] ++ List.replicate 92 (0 : Byte)) 0) 0).s_magic
        = 0x73717368 :=
  ⟨by decide, by
    rw [(sqfs_swapin_super_block_fields ⟨.bigEndian, true⟩
      ([0x68, 0x73, 0x71, 0x73] ++ List.replicate 92 (0 : Byte)) (by decide)).1]
    decide⟩

/-- C10: each swap primitive is its own inverse.  For every 16-bit `x`,
`sqfs_swap16` applied twice gives `x`; for `BITS` in 16, 32, 64, on either
host and in either build variant, `sqfs_swapinBITS` applied twice to a
location holding the `BITS`-bit value `y` leaves the value `y` there, and
more generally applied twice to any location inside memory it restores every
byte of memory. -/
theorem swap_twice_identity (h : Host) (BITS : Nat) (hB : BITS = 16 ∨ BITS = 32 ∨ BITS = 64)
    (x : Nat) (hx : x < 2 ^ 16) (y : Nat) (hy : y < 2 ^ BITS)
    (mem : List Byte) (v : Nat) (hin : v + BITS / 8 ≤ mem.length) :
    sqfs_swap16 (sqfs_swap16 x) = x
      ∧ load h.order BITS
          (sqfs_swapin h BITS (sqfs_swapin h BITS (store h.order BITS mem v y) v) v) v = y
      ∧ sqfs_swapin h BITS (sqfs_swapin h BITS mem v) v = mem := by
  refine ⟨sqfs_swap16_twice x hx, ?_, sqfs_swapin_twice h BITS mem v hin⟩
  rw [sqfs_swapin_twice h BITS _ v (by rw [store_length]; exact hin), load_store _ _ _ _ _ hin]
  apply Nat.mod_eq_of_lt
  rcases hB with rfl | rfl | rfl <;> exact hy

theorem swap_twice_identity_witness :
    (64 = 16 ∨ 64 = 32 ∨ 64 = 64) ∧ 0xFFFF < 2 ^ 16 ∧ 0xFFFFFFFFFFFFFFFF < 2 ^ 64 ∧
    0 + 64 / 8 ≤ ([1, 2, 3, 4, 5, 6, 7, 8] : List Byte).length ∧
    (sqfs_swap16 (sqfs_swap16 0xFFFF) = 0xFFFF
      ∧ load .bigEndian 64
          (sqfs_swapin ⟨.bigEndian, false⟩ 64 (sqfs_swapin ⟨.bigEndian, false⟩ 64
            (store .bigEndian 64 [1, 2, 3, 4, 5, 6, 7, 8] 0 0xFFFFFFFFFFFFFFFF) 0) 0) 0
          = 0xFFFFFFFFFFFFFFFF
      ∧ sqfs_swapin ⟨.bigEndian, false⟩ 64
          (sqfs_swapin ⟨.bigEndian, false⟩ 64 [1, 2, 3, 4, 5, 6, 7, 8] 0) 0
          = [1, 2, 3, 4, 5, 6, 7, 8]) :=
  ⟨by decide, by decide, by decide, by decide,
    swap_twice_identity ⟨.bigEndian, false⟩ 64 (by decide) 0xFFFF (by decide)
      0xFFFFFFFFFFFFFFFF (by decide) [1, 2, 3, 4, 5, 6, 7, 8] 0 (by decide)⟩

/-! ## Lemmas on the codec registry -/

theorem memset_full (types : List Int) (c : Int) (n : Nat) (hlen : types.length = n) :
    memset types c n = List.replicate n c := by
  unfold memset
  rw [← hlen, List.drop_length, Nat.min_self, List.append_nil]

theorem get_isSome_mem_source_order (cfg : Config) (t : Int)
    (hsome : (sqfs_decompressor_get cfg t).isSome = true) : t ∈ source_order := by
  unfold sqfs_decompressor_get at hsome
  simp only [source_order, List.mem_cons, List.mem_singleton]
  by_cases h1 : t = ZLIB_COMPRESSION
  · simp [h1]
  by_cases h2 : t = XZ_COMPRESSION
  · simp [h2]
  by_cases h3 : t = LZO_COMPRESSION
  · simp [h3]
  by_cases h4 : t = LZ4_COMPRESSION
  · simp [h4]
  by_cases h5 : t = ZSTD_COMPRESSION
  · simp [h5]
  simp [h1, h2, h3, h4, h5] at hsome

theorem sqfs_compression_supported_eq (cfg : Config) (m : Nat) (types : List Int)
    (hlen : types.length = m + 7) :
    sqfs_compression_supported cfg (m + 7) types =
      (source_order.filter (fun t => (sqfs_decompressor_get cfg t).isSome)
          ++ List.replicate
              (m + 7 - (source_order.filter (fun t => (sqfs_decompressor_get cfg t).isSome)).length)
              SQFS_COMP_UNKNOWN,
        (source_order.filter (fun t => (sqfs_decompressor_get cfg t).isSome)).length) := by
  unfold sqfs_compression_supported
  rw [memset_full types _ _ hlen]
  obtain ⟨z, x, l, l4, zs, u, sx⟩ := cfg
  cases z <;> cases x <;> cases l <;> cases l4 <;> cases zs <;>
    simp [emit, source_order, sqfs_decompressor_get, ZLIB_COMPRESSION, XZ_COMPRESSION,
      LZO_COMPRESSION, LZ4_COMPRESSION, ZSTD_COMPRESSION, SQFS_COMP_UNKNOWN, List.filter,
      List.replicate_succ]

theorem supported_list_eq (cfg : Config) (SQFS_COMP_MAX : Nat) (hmax : 7 ≤ SQFS_COMP_MAX)
    (types : List Int) (hlen : types.length = SQFS_COMP_MAX) :
    supported_list cfg SQFS_COMP_MAX types =
      source_order.filter (fun t => (sqfs_decompressor_get cfg t).isSome) := by
  obtain ⟨m, rfl⟩ : ∃ m, SQFS_COMP_MAX = m + 7 := ⟨SQFS_COMP_MAX - 7, by omega⟩
  unfold supported_list
  rw [sqfs_compression_supported_eq cfg m types hlen]
  simp

theorem zlib_outcome (L : Libs) (in_ : List Byte) (insz : Nat) (out : List Byte) (outsz : Nat) :
    ((sqfs_decompressor_zlib L in_ insz out outsz).err = sqfs_err.SQFS_OK
        ↔ (L.uncompress out outsz in_ insz).ret = Z_OK)
    ∧ ((sqfs_decompressor_zlib L in_ insz out outsz).err = sqfs_err.SQFS_ERR
        ↔ (L.uncompress out outsz in_ insz).ret ≠ Z_OK)
    ∧ ((sqfs_decompressor_zlib L in_ insz out outsz).err = sqfs_err.SQFS_OK
        → (sqfs_decompressor_zlib L in_ insz out outsz).outsz
            = (L.uncompress out outsz in_ insz).len) := by
  unfold sqfs_decompressor_zlib
  by_cases hr : (L.uncompress out outsz in_ insz).ret = Z_OK <;> simp [hr]

theorem xz_outcome (L : Libs) (in_ : List Byte) (insz : Nat) (out : List Byte) (outsz : Nat) :
    ((sqfs_decompressor_xz L in_ insz out outsz).err = sqfs_err.SQFS_OK
        ↔ (L.lzma_stream_buffer_decode (2 ^ 64 - 1) 0 in_ 0 insz out 0 outsz).ret = LZMA_OK)
    ∧ ((sqfs_decompressor_xz L in_ insz out outsz).err = sqfs_err.SQFS_ERR
        ↔ (L.lzma_stream_buffer_decode (2 ^ 64 - 1) 0 in_ 0 insz out 0 outsz).ret ≠ LZMA_OK)
    ∧ ((sqfs_decompressor_xz L in_ insz out outsz).err = sqfs_err.SQFS_OK
        → (sqfs_decompressor_xz L in_ insz out outsz).outsz
            = (L.lzma_stream_buffer_decode (2 ^ 64 - 1) 0 in_ 0 insz out 0 outsz).len) := by
  simp only [sqfs_decompressor_xz]
  generalize L.lzma_stream_buffer_decode (2 ^ 64 - 1) 0 in_ 0 insz out 0 outsz = r
  by_cases hr : r.ret = LZMA_OK <;> simp [hr]

theorem lzo_outcome (L : Libs) (in_ : List Byte) (insz : Nat) (out : List Byte) (outsz : Nat) :
    ((sqfs_decompressor_lzo L in_ insz out outsz).err = sqfs_err.SQFS_OK
        ↔ (L.lzo1x_decompress_safe in_ insz out outsz).ret = LZO_E_OK)
    ∧ ((sqfs_decompressor_lzo L in_ insz out outsz).err = sqfs_err.SQFS_ERR
        ↔ (L.lzo1x_decompress_safe in_ insz out outsz).ret ≠ LZO_E_OK)
    ∧ ((sqfs_decompressor_lzo L in_ insz out outsz).err = sqfs_err.SQFS_OK
        → (sqfs_decompressor_lzo L in_ insz out outsz).outsz
            = (L.lzo1x_decompress_safe in_ insz out outsz).len) := by
  unfold sqfs_decompressor_lzo
  by_cases hr : (L.lzo1x_decompress_safe in_ insz out outsz).ret = LZO_E_OK <;> simp [hr]

theorem lz4_outcome (L : Libs) (in_ : List Byte) (insz : Nat) (out : List Byte) (outsz : Nat) :
    ((sqfs_decompressor_lz4 L in_ insz out outsz).err = sqfs_err.SQFS_OK
        ↔ 0 ≤ (L.LZ4_decompress_safe in_ out (toInt insz) (toInt outsz)).1)
    ∧ ((sqfs_decompressor_lz4 L in_ insz out outsz).err = sqfs_err.SQFS_ERR
        ↔ ¬ 0 ≤ (L.LZ4_decompress_safe in_ out (toInt insz) (toInt outsz)).1)
    ∧ ((sqfs_decompressor_lz4 L in_ insz out outsz).err = sqfs_err.SQFS_OK
        → ((sqfs_decompressor_lz4 L in_ insz out outsz).outsz : Int)
            = (L.LZ4_decompress_safe in_ out (toInt insz) (toInt outsz)).1) := by
  unfold sqfs_decompressor_lz4
  by_cases hr : (L.LZ4_decompress_safe in_ out (toInt insz) (toInt outsz)).1 < 0
  · simp [hr]
  · simp [hr, Int.toNat_of_nonneg (Int.not_lt.mp hr), Int.not_lt.mp hr]

theorem zstd_outcome (L : Libs) (in_ : List Byte) (insz : Nat) (out : List Byte) (outsz : Nat) :
    ((sqfs_decompressor_zstd L in_ insz out outsz).err = sqfs_err.SQFS_OK
        ↔ L.ZSTD_isError (L.ZSTD_decompress out outsz in_ insz).1 = false)
    ∧ ((sqfs_decompressor_zstd L in_ insz out outsz).err = sqfs_err.SQFS_ERR
        ↔ ¬ L.ZSTD_isError (L.ZSTD_decompress out outsz in_ insz).1 = false)
    ∧ ((sqfs_decompressor_zstd L in_ insz out outsz).err = sqfs_err.SQFS_OK
        → (sqfs_decompressor_zstd L in_ insz out outsz).outsz
            = (L.ZSTD_decompress out outsz in_ insz).1) := by
  unfold sqfs_decompressor_zstd
  cases hr : L.ZSTD_isError (L.ZSTD_decompress out outsz in_ insz).1 <;> simp [hr]

theorem xz_zig_outcome (L : Libs) (in_ : List Byte) (insz : Nat) (out : List Byte)
    (outsz : Nat) :
    ((sqfs_decompressor_xz_zig L in_ insz out outsz).err = sqfs_err.SQFS_OK
        ↔ (L.zig_xz_decode in_ insz out outsz).ret = 0)
    ∧ ((sqfs_decompressor_xz_zig L in_ insz out outsz).err = sqfs_err.SQFS_ERR
        ↔ (L.zig_xz_decode in_ insz out outsz).ret ≠ 0)
    ∧ ((sqfs_decompressor_xz_zig L in_ insz out outsz).err = sqfs_err.SQFS_OK
        → (sqfs_decompressor_xz_zig L in_ insz out outsz).outsz
            = (L.zig_xz_decode in_ insz out outsz).len) := by
  unfold sqfs_decompressor_xz_zig
  by_cases hr : (L.zig_xz_decode in_ insz out outsz).ret = 0 <;> simp [hr]

theorem zlib_libdeflate_outcome (L : Libs) (g : Option Nat) (in_ : List Byte) (insz : Nat)
    (out : List Byte) (outsz : Nat) :
    ((sqfs_decompressor_zlib_libdeflate L g in_ insz out outsz).1.err = sqfs_err.SQFS_OK
        ↔ (L.libdeflate_zlib_decompress (g.getD L.libdeflate_alloc_decompressor)
              in_ insz out outsz outsz).ret = LIBDEFLATE_SUCCESS)
    ∧ ((sqfs_decompressor_zlib_libdeflate L g in_ insz out outsz).1.err = sqfs_err.SQFS_ERR
        ↔ (L.libdeflate_zlib_decompress (g.getD L.libdeflate_alloc_decompressor)
              in_ insz out outsz outsz).ret ≠ LIBDEFLATE_SUCCESS)
    ∧ ((sqfs_decompressor_zlib_libdeflate L g in_ insz out outsz).1.err = sqfs_err.SQFS_OK
        → (sqfs_decompressor_zlib_libdeflate L g in_ insz out outsz).1.outsz
            = (L.libdeflate_zlib_decompress (g.getD L.libdeflate_alloc_decompressor)
              in_ insz out outsz outsz).len) := by
  unfold sqfs_decompressor_zlib_libdeflate
  cases g <;>
    (simp only [Option.getD]
     split <;> simp_all)

/-! ## The codec registry: claims -/

/-- C3: for every build configuration and each backend code 1 (zlib), 3 (lzo),
4 (xz), 5 (lz4), 6 (zstd), `sqfs_decompressor_get` returns that backend's own
decode function when the backend is compiled in and `NULL` when it is not; on
a build with only zlib and xz, code 3 gives `NULL`, code 1 the zlib decoder and
code 4 the xz decoder. -/
theorem sqfs_decompressor_get_compiled (cfg : Config) :
    sqfs_decompressor_get cfg 1 = (if cfg.ENABLE_ZLIB then some sqfs_decompressor.zlib else none)
    ∧ sqfs_decompressor_get cfg 3 = (if cfg.ENABLE_LZO then some sqfs_decompressor.lzo else none)
    ∧ sqfs_decompressor_get cfg 4 = (if cfg.ENABLE_XZ then some sqfs_decompressor.xz else none)
    ∧ sqfs_decompressor_get cfg 5 = (if cfg.ENABLE_LZ4 then some sqfs_decompressor.lz4 else none)
    ∧ sqfs_decompressor_get cfg 6 = (if cfg.ENABLE_ZSTD then some sqfs_decompressor.zstd else none)
    ∧ (∀ u x : Bool,
        sqfs_decompressor_get ⟨true, true, false, false, false, u, x⟩ 3 = none
        ∧ sqfs_decompressor_get ⟨true, true, false, false, false, u, x⟩ 1
            = some sqfs_decompressor.zlib
        ∧ sqfs_decompressor_get ⟨true, true, false, false, false, u, x⟩ 4
            = some sqfs_decompressor.xz) := by
  obtain ⟨z, x, l, l4, zs, u, sx⟩ := cfg
  cases z <;> cases x <;> cases l <;> cases l4 <;> cases zs <;>
    simp [sqfs_decompressor_get, ZLIB_COMPRESSION, XZ_COMPRESSION, LZO_COMPRESSION,
      LZ4_COMPRESSION, ZSTD_COMPRESSION]

/-- C4: every backend decode wrapper has two outcomes.  Whatever the library
reports, the wrapper returns `SQFS_OK` exactly when the library reports clean
success (`uncompress` returns `Z_OK`, `lzma_stream_buffer_decode` returns
`LZMA_OK`, `lzo1x_decompress_safe` returns `LZO_E_OK`, `LZ4_decompress_safe`
returns a non-negative count, `ZSTD_isError` is false on the result of
`ZSTD_decompress`; for the two other build variants `libdeflate_zlib_decompress`
returns `LIBDEFLATE_SUCCESS` and `zig_xz_decode` returns 0) and `SQFS_ERR`
otherwise; on `SQFS_OK` the length left in `*outsz` is the length the library
reported. -/
theorem decode_wrapper_two_outcomes (L : Libs) (in_ : List Byte) (insz : Nat)
    (out : List Byte) (outsz : Nat) (g : Option Nat) :
    (((sqfs_decompressor_zlib L in_ insz out outsz).err = sqfs_err.SQFS_OK
          ↔ (L.uncompress out outsz in_ insz).ret = Z_OK)
      ∧ ((sqfs_decompressor_zlib L in_ insz out outsz).err = sqfs_err.SQFS_ERR
          ↔ (L.uncompress out outsz in_ insz).ret ≠ Z_OK)
      ∧ ((sqfs_decompressor_zlib L in_ insz out outsz).err = sqfs_err.SQFS_OK
          → (sqfs_decompressor_zlib L in_ insz out outsz).outsz
              = (L.uncompress out outsz in_ insz).len))
    ∧ (((sqfs_decompressor_xz L in_ insz out outsz).err = sqfs_err.SQFS_OK
          ↔ (L.lzma_stream_buffer_decode (2 ^ 64 - 1) 0 in_ 0 insz out 0 outsz).ret = LZMA_OK)
      ∧ ((sqfs_decompressor_xz L in_ insz out outsz).err = sqfs_err.SQFS_ERR
          ↔ (L.lzma_stream_buffer_decode (2 ^ 64 - 1) 0 in_ 0 insz out 0 outsz).ret ≠ LZMA_OK)
      ∧ ((sqfs_decompressor_xz L in_ insz out outsz).err = sqfs_err.SQFS_OK
          → (sqfs_decompressor_xz L in_ insz out outsz).outsz
              = (L.lzma_stream_buffer_decode (2 ^ 64 - 1) 0 in_ 0 insz out 0 outsz).len))
    ∧ (((sqfs_decompressor_lzo L in_ insz out outsz).err = sqfs_err.SQFS_OK
          ↔ (L.lzo1x_decompress_safe in_ insz out outsz).ret = LZO_E_OK)
      ∧ ((sqfs_decompressor_lzo L in_ insz out outsz).err = sqfs_err.SQFS_ERR
          ↔ (L.lzo1x_decompress_safe in_ insz out outsz).ret ≠ LZO_E_OK)
      ∧ ((sqfs_decompressor_lzo L in_ insz out outsz).err = sqfs_err.SQFS_OK
          → (sqfs_decompressor_lzo L in_ insz out outsz).outsz
              = (L.lzo1x_decompress_safe in_ insz out outsz).len))
    ∧ (((sqfs_decompressor_lz4 L in_ insz out outsz).err = sqfs_err.SQFS_OK
          ↔ 0 ≤ (L.LZ4_decompress_safe in_ out (toInt insz) (toInt outsz)).1)
      ∧ ((sqfs_decompressor_lz4 L in_ insz out outsz).err = sqfs_err.SQFS_ERR
          ↔ ¬ 0 ≤ (L.LZ4_decompress_safe in_ out (toInt insz) (toInt outsz)).1)
      ∧ ((sqfs_decompressor_lz4 L in_ insz out outsz).err = sqfs_err.SQFS_OK
          → ((sqfs_decompressor_lz4 L in_ insz out outsz).outsz : Int)
              = (L.LZ4_decompress_safe in_ out (toInt insz) (toInt outsz)).1))
    ∧ (((sqfs_decompressor_zstd L in_ insz out outsz).err = sqfs_err.SQFS_OK
          ↔ L.ZSTD_isError (L.ZSTD_decompress out outsz in_ insz).1 = false)
      ∧ ((sqfs_decompressor_zstd L in_ insz out outsz).err = sqfs_err.SQFS_ERR
          ↔ ¬ L.ZSTD_isError (L.ZSTD_decompress out outsz in_ insz).1 = false)
      ∧ ((sqfs_decompressor_zstd L in_ insz out outsz).err = sqfs_err.SQFS_OK
          → (sqfs_decompressor_zstd L in_ insz out outsz).outsz
              = (L.ZSTD_decompress out outsz in_ insz).1))
    ∧ (((sqfs_decompressor_xz_zig L in_ insz out outsz).err = sqfs_err.SQFS_OK
          ↔ (L.zig_xz_decode in_ insz out outsz).ret = 0)
      ∧ ((sqfs_decompressor_xz_zig L in_ insz out outsz).err = sqfs_err.SQFS_ERR
          ↔ (L.zig_xz_decode in_ insz out outsz).ret ≠ 0)
      ∧ ((sqfs_decompressor_xz_zig L in_ insz out outsz).err = sqfs_err.SQFS_OK
          → (sqfs_decompressor_xz_zig L in_ insz out outsz).outsz
              = (L.zig_xz_decode in_ insz out outsz).len))
    ∧ (((sqfs_decompressor_zlib_libdeflate L g in_ insz out outsz).1.err = sqfs_err.SQFS_OK
          ↔ (L.libdeflate_zlib_decompress (g.getD L.libdeflate_alloc_decompressor)
                in_ insz out outsz outsz).ret = LIBDEFLATE_SUCCESS)
      ∧ ((sqfs_decompressor_zlib_libdeflate L g in_ insz out outsz).1.err = sqfs_err.SQFS_ERR
          ↔ (L.libdeflate_zlib_decompress (g.getD L.libdeflate_alloc_decompressor)
                in_ insz out outsz outsz).ret ≠ LIBDEFLATE_SUCCESS)
      ∧ ((sqfs_decompressor_zlib_libdeflate L g in_ insz out outsz).1.err = sqfs_err.SQFS_OK
          → (sqfs_decompressor_zlib_libdeflate L g in_ insz out outsz).1.outsz
              = (L.libdeflate_zlib_decompress (g.getD L.libdeflate_alloc_decompressor)
                in_ insz out outsz outsz).len)) :=
  ⟨zlib_outcome L in_ insz out outsz, xz_outcome L in_ insz out outsz,
    lzo_outcome L in_ insz out outsz, lz4_outcome L in_ insz out outsz,
    zstd_outcome L in_ insz out outsz, xz_zig_outcome L in_ insz out outsz,
    zlib_libdeflate_outcome L g in_ insz out outsz⟩

/-- C5, counterexample: with a library that reports success and the length 5
for the capacity 4, the zlib wrapper returns `SQFS_OK` and reports 5 in
`*outsz`, a length above the capacity; so do the lz4 and zstd wrappers. -/
theorem wrapper_accepts_length_above_cap :
    (overLibs.uncompress [0, 0, 0, 0] 4 [] 0).ret = Z_OK
    ∧ 4 < (overLibs.uncompress [0, 0, 0, 0] 4 [] 0).len
    ∧ (sqfs_decompressor_zlib overLibs [] 0 [0, 0, 0, 0] 4).err = sqfs_err.SQFS_OK
    ∧ ¬ (sqfs_decompressor_zlib overLibs [] 0 [0, 0, 0, 0] 4).outsz ≤ 4
    ∧ (sqfs_decompressor_lz4 overLibs [] 0 [0, 0, 0, 0] 4).err = sqfs_err.SQFS_OK
    ∧ ¬ (sqfs_decompressor_lz4 overLibs [] 0 [0, 0, 0, 0] 4).outsz ≤ 4
    ∧ (sqfs_decompressor_zstd overLibs [] 0 [0, 0, 0, 0] 4).err = sqfs_err.SQFS_OK
    ∧ ¬ (sqfs_decompressor_zstd overLibs [] 0 [0, 0, 0, 0] 4).outsz ≤ 4 := by
  decide

/-- C5, amended: the wrappers do not compare the length the library reports
with the capacity `cap`; whenever every library routine that reports success
reports a length of at most `cap`, each wrapper that returns `SQFS_OK` leaves
in `*outsz` a length of at most `cap`. -/
theorem decode_length_within_cap (L : Libs) (in_ : List Byte) (insz : Nat) (out : List Byte)
    (cap : Nat) (g : Option Nat) (hlib : honoursCapacity L in_ insz out cap g) :
    ((sqfs_decompressor_zlib L in_ insz out cap).err = sqfs_err.SQFS_OK
        → (sqfs_decompressor_zlib L in_ insz out cap).outsz ≤ cap)
    ∧ ((sqfs_decompressor_xz L in_ insz out cap).err = sqfs_err.SQFS_OK
        → (sqfs_decompressor_xz L in_ insz out cap).outsz ≤ cap)
    ∧ ((sqfs_decompressor_lzo L in_ insz out cap).err = sqfs_err.SQFS_OK
        → (sqfs_decompressor_lzo L in_ insz out cap).outsz ≤ cap)
    ∧ ((sqfs_decompressor_lz4 L in_ insz out cap).err = sqfs_err.SQFS_OK
        → (sqfs_decompressor_lz4 L in_ insz out cap).outsz ≤ cap)
    ∧ ((sqfs_decompressor_zstd L in_ insz out cap).err = sqfs_err.SQFS_OK
        → (sqfs_decompressor_zstd L in_ insz out cap).outsz ≤ cap)
    ∧ ((sqfs_decompressor_xz_zig L in_ insz out cap).err = sqfs_err.SQFS_OK
        → (sqfs_decompressor_xz_zig L in_ insz out cap).outsz ≤ cap)
    ∧ ((sqfs_decompressor_zlib_libdeflate L g in_ insz out cap).1.err = sqfs_err.SQFS_OK
        → (sqfs_decompressor_zlib_libdeflate L g in_ insz out cap).1.outsz ≤ cap) := by
  obtain ⟨hz, hx, hlzo, hlz4, hzs, hzig, hld⟩ := hlib
  have tz := zlib_outcome L in_ insz out cap
  have tx := xz_outcome L in_ insz out cap
  have tlzo := lzo_outcome L in_ insz out cap
  have tlz4 := lz4_outcome L in_ insz out cap
  have tzs := zstd_outcome L in_ insz out cap
  have tzig := xz_zig_outcome L in_ insz out cap
  have tld := zlib_libdeflate_outcome L g in_ insz out cap
  refine ⟨fun h => ?_, fun h => ?_, fun h => ?_, fun h => ?_, fun h => ?_, fun h => ?_,
    fun h => ?_⟩
  · rw [tz.2.2 h]; exact hz (tz.1.mp h)
  · rw [tx.2.2 h]; exact hx (tx.1.mp h)
  · rw [tlzo.2.2 h]; exact hlzo (tlzo.1.mp h)
  · have := tlz4.2.2 h
    omega
  · rw [tzs.2.2 h]; exact hzs (tzs.1.mp h)
  · rw [tzig.2.2 h]; exact hzig (tzig.1.mp h)
  · rw [tld.2.2 h]; exact hld (tld.1.mp h)

theorem decode_length_within_cap_witness :
    honoursCapacity storedLibs [1, 2, 3] 3 [0, 0, 0, 0] 4 none
    ∧ (sqfs_decompressor_zlib storedLibs [1, 2, 3] 3 [0, 0, 0, 0] 4).err = sqfs_err.SQFS_OK
    ∧ (sqfs_decompressor_zlib storedLibs [1, 2, 3] 3 [0, 0, 0, 0] 4).outsz ≤ 4 :=
  have hlib : honoursCapacity storedLibs [1, 2, 3] 3 [0, 0, 0, 0] 4 none := by
    unfold honoursCapacity; decide
  ⟨hlib, by decide,
    (decode_length_within_cap storedLibs [1, 2, 3] 3 [0, 0, 0, 0] 4 none hlib).1 (by decide)⟩

/-- C6: for every build configuration (the one with all five backends enabled
included), `sqfs_decompressor_get` returns `NULL` for the reserved code 0, for
code 2 (lzma) and for every value outside 1..6; it returns a decode function
for no value other than 1, 3, 4, 5, 6. -/
theorem sqfs_decompressor_get_absent (cfg : Config) (t : Int) :
    sqfs_decompressor_get cfg 0 = none
    ∧ sqfs_decompressor_get cfg 2 = none
    ∧ ((t < 1 ∨ 6 < t) → sqfs_decompressor_get cfg t = none)
    ∧ (sqfs_decompressor_get cfg t ≠ none → t = 1 ∨ t = 3 ∨ t = 4 ∨ t = 5 ∨ t = 6) := by
  refine ⟨?_, ?_, ?_, ?_⟩
  · simp [sqfs_decompressor_get, ZLIB_COMPRESSION, XZ_COMPRESSION, LZO_COMPRESSION,
      LZ4_COMPRESSION, ZSTD_COMPRESSION]
  · simp [sqfs_decompressor_get, ZLIB_COMPRESSION, XZ_COMPRESSION, LZO_COMPRESSION,
      LZ4_COMPRESSION, ZSTD_COMPRESSION]
  · intro hout
    have h1 : t ≠ 1 := by omega
    have h3 : t ≠ 3 := by omega
    have h4 : t ≠ 4 := by omega
    have h5 : t ≠ 5 := by omega
    have h6 : t ≠ 6 := by omega
    simp [sqfs_decompressor_get, ZLIB_COMPRESSION, XZ_COMPRESSION, LZO_COMPRESSION,
      LZ4_COMPRESSION, ZSTD_COMPRESSION, h1, h3, h4, h5, h6]
  · intro hsome
    have hmem := get_isSome_mem_source_order cfg t (by
      cases hg : sqfs_decompressor_get cfg t with
      | none => exact absurd hg hsome
      | some d => rfl)
    simp only [source_order, List.mem_cons, List.mem_singleton, LZO_COMPRESSION,
      XZ_COMPRESSION, ZLIB_COMPRESSION, LZ4_COMPRESSION, ZSTD_COMPRESSION] at hmem
    simp only [List.not_mem_nil, or_false] at hmem
    omega

/-- C7: for every build configuration and every compression-type value `t`,
`t` is among the entries `sqfs_compression_supported` writes by its
assignments exactly when `sqfs_decompressor_get(t)` is not `NULL`; the same
holds for the non-zero entries of the whole array after the call. -/
theorem supported_iff_decompressor (cfg : Config) (SQFS_COMP_MAX : Nat)
    (hmax : 7 ≤ SQFS_COMP_MAX) (types : List Int) (hlen : types.length = SQFS_COMP_MAX)
    (t : Int) :
    (t ∈ supported_list cfg SQFS_COMP_MAX types ↔ sqfs_decompressor_get cfg t ≠ none)
    ∧ (t ≠ SQFS_COMP_UNKNOWN →
        (t ∈ (sqfs_compression_supported cfg SQFS_COMP_MAX types).1
          ↔ sqfs_decompressor_get cfg t ≠ none)) := by
  have hiff : t ∈ source_order.filter (fun t => (sqfs_decompressor_get cfg t).isSome)
      ↔ sqfs_decompressor_get cfg t ≠ none := by
    rw [List.mem_filter]
    constructor
    · rintro ⟨_, hs⟩ hn
      rw [hn] at hs
      cases hs
    · intro hn
      have hs : (sqfs_decompressor_get cfg t).isSome = true := by
        cases hg : sqfs_decompressor_get cfg t with
        | none => exact absurd hg hn
        | some d => rfl
      exact ⟨get_isSome_mem_source_order cfg t hs, hs⟩
  refine ⟨?_, fun hne => ?_⟩
  · rw [supported_list_eq cfg SQFS_COMP_MAX hmax types hlen]
    exact hiff
  · obtain ⟨m, rfl⟩ : ∃ m, SQFS_COMP_MAX = m + 7 := ⟨SQFS_COMP_MAX - 7, by omega⟩
    rw [sqfs_compression_supported_eq cfg m types hlen, List.mem_append, ← hiff]
    constructor
    · rintro (hm | hm)
      · exact hm
      · exact absurd (List.eq_of_mem_replicate hm) hne
    · exact fun hm => Or.inl hm

theorem supported_iff_decompressor_witness :
    7 ≤ 16 ∧ (List.replicate 16 (9 : Int)).length = 16
    ∧ ((4 : Int) ∈ supported_list ⟨true, true, false, false, false, false, false⟩ 16
          (List.replicate 16 9)
        ↔ sqfs_decompressor_get ⟨true, true, false, false, false, false, false⟩ 4 ≠ none)
    ∧ ((4 : Int) ≠ SQFS_COMP_UNKNOWN →
        ((4 : Int) ∈ (sqfs_compression_supported ⟨true, true, false, false, false, false, false⟩
            16 (List.replicate 16 9)).1
          ↔ sqfs_decompressor_get ⟨true, true, false, false, false, false, false⟩ 4 ≠ none)) :=
  ⟨by decide, by decide,
    supported_iff_decompressor ⟨true, true, false, false, false, false, false⟩ 16 (by decide)
      (List.replicate 16 9) (by decide) 4⟩

/-- C8: for every build configuration the list `sqfs_compression_supported`
produces is deterministic (it does not depend on what the caller's array held
before the call, so every call gives the same array and count), contains no
compression type twice and contains no entry equal to the reserved unknown
code 0. -/
theorem supported_list_deterministic_nodup (cfg : Config) (SQFS_COMP_MAX : Nat)
    (hmax : 7 ≤ SQFS_COMP_MAX) (types types2 : List Int)
    (hlen : types.length = SQFS_COMP_MAX) (hlen2 : types2.length = SQFS_COMP_MAX) :
    sqfs_compression_supported cfg SQFS_COMP_MAX types
        = sqfs_compression_supported cfg SQFS_COMP_MAX types2
    ∧ (supported_list cfg SQFS_COMP_MAX types).Nodup
    ∧ SQFS_COMP_UNKNOWN ∉ supported_list cfg SQFS_COMP_MAX types := by
  refine ⟨?_, ?_, ?_⟩
  · unfold sqfs_compression_supported
    rw [memset_full types _ _ hlen, memset_full types2 _ _ hlen2]
  · rw [supported_list_eq cfg SQFS_COMP_MAX hmax types hlen]
    exact List.Nodup.filter _ (by decide)
  · rw [supported_list_eq cfg SQFS_COMP_MAX hmax types hlen]
    intro hmem
    have := (List.mem_filter.mp hmem).1
    revert this
    decide

theorem supported_list_deterministic_nodup_witness :
    7 ≤ 16 ∧ (List.replicate 16 (9 : Int)).length = 16 ∧ (List.replicate 16 (5 : Int)).length = 16
    ∧ (sqfs_compression_supported ⟨true, true, true, true, true, false, true⟩ 16
          (List.replicate 16 9)
        = sqfs_compression_supported ⟨true, true, true, true, true, false, true⟩ 16
          (List.replicate 16 5)
      ∧ (supported_list ⟨true, true, true, true, true, false, true⟩ 16
          (List.replicate 16 9)).Nodup
      ∧ SQFS_COMP_UNKNOWN ∉ supported_list ⟨true, true, true, true, true, false, true⟩ 16
          (List.replicate 16 9)) :=
  ⟨by decide, by decide, by decide,
    supported_list_deterministic_nodup ⟨true, true, true, true, true, false, true⟩ 16
      (by decide) (List.replicate 16 9) (List.replicate 16 5) (by decide) (by decide)⟩

/-- C9, counterexample: on a build with zlib and lzo the list is lzo (3), then
zlib (1): a type with a larger code is listed before one with a smaller code. -/
theorem supported_list_not_ascending :
    supported_list ⟨true, false, true, false, false, false, false⟩ 16 (List.replicate 16 0)
        = [3, 1]
    ∧ ¬ (supported_list ⟨true, false, true, false, false, false, false⟩ 16
          (List.replicate 16 0)).Pairwise (fun a b => a ≤ b) := by
  decide

/-- C9, amended: for every build configuration `sqfs_compression_supported`
reports the available types in the fixed order of its source, lzo (3), xz (4),
zlib (1), lz4 (5), zstd (6): the list is that sequence restricted to the
compiled-in types, so apart from zlib, which follows lzo and xz, no type with
a larger code is listed before a type with a smaller code. -/
theorem supported_list_source_order (cfg : Config) (SQFS_COMP_MAX : Nat)
    (hmax : 7 ≤ SQFS_COMP_MAX) (types : List Int) (hlen : types.length = SQFS_COMP_MAX) :
    supported_list cfg SQFS_COMP_MAX types
        = ([3, 4, 1, 5, 6] : List Int).filter (fun t => (sqfs_decompressor_get cfg t).isSome)
    ∧ (supported_list cfg SQFS_COMP_MAX types).Sublist [3, 4, 1, 5, 6]
    ∧ ((supported_list cfg SQFS_COMP_MAX types).filter (fun t => t ≠ 1)).Pairwise
        (fun a b => a < b) := by
  have heq := supported_list_eq cfg SQFS_COMP_MAX hmax types hlen
  have hso : source_order = [3, 4, 1, 5, 6] := rfl
  rw [hso] at heq
  refine ⟨heq, ?_, ?_⟩
  · rw [heq]
    exact List.filter_sublist _
  · rw [heq]
    have hsub : (List.filter (fun t => decide (t ≠ 1))
        (([3, 4, 1, 5, 6] : List Int).filter
          (fun t => (sqfs_decompressor_get cfg t).isSome))).Sublist
        (List.filter (fun t => decide (t ≠ 1)) ([3, 4, 1, 5, 6] : List Int)) :=
      List.Sublist.filter _ (List.filter_sublist _)
    exact List.Pairwise.sublist hsub (by decide)

theorem supported_list_source_order_witness :
    7 ≤ 16 ∧ (List.replicate 16 (0 : Int)).length = 16
    ∧ (supported_list ⟨true, false, true, false, false, false, false⟩ 16 (List.replicate 16 0)
        = ([3, 4, 1, 5, 6] : List Int).filter
            (fun t => (sqfs_decompressor_get
              ⟨true, false, true, false, false, false, false⟩ t).isSome)
      ∧ (supported_list ⟨true, false, true, false, false, false, false⟩ 16
          (List.replicate 16 0)).Sublist [3, 4, 1, 5, 6]
      ∧ ((supported_list ⟨true, false, true, false, false, false, false⟩ 16
          (List.replicate 16 0)).filter (fun t => t ≠ 1)).Pairwise (fun a b => a < b)) :=
  ⟨by decide, by decide,
    supported_list_source_order ⟨true, false, true, false, false, false, false⟩ 16 (by decide)
      (List.replicate 16 0) (by decide)⟩

/-! ## Further lemmas on runs of conversions -/

theorem sqfs_swapin_littleEndian (asm : Bool) (BITS : Nat) (mem : List Byte) (v : Nat) :
    sqfs_swapin ⟨.littleEndian, asm⟩ BITS mem v = mem := by
  rw [sqfs_swapin_eq]
  exact writeBytes_readBytes mem v (BITS / 8)

theorem swapFields_littleEndian (asm : Bool) (calls : List (Nat × Nat)) (mem : List Byte) :
    swapFields ⟨.littleEndian, asm⟩ calls mem = mem := by
  induction calls generalizing mem with
  | nil => rfl
  | cons c calls ih => rw [swapFields_cons, sqfs_swapin_littleEndian, ih]

theorem swapFields_append (h : Host) (pre post : List (Nat × Nat)) (mem : List Byte) :
    swapFields h (pre ++ post) mem = swapFields h post (swapFields h pre mem) := by
  unfold swapFields
  rw [List.foldl_append]

theorem readBytes_one (mem : List Byte) (a : Nat) : readBytes mem a 1 = [readByte mem a] := rfl

theorem readByte_swapFields_outside (h : Host) (calls : List (Nat × Nat)) (mem : List Byte)
    (j : Nat) (hout : ∀ c ∈ calls, j < c.2 ∨ c.2 + c.1 / 8 ≤ j) :
    readByte (swapFields h calls mem) j = readByte mem j := by
  have hrb := readBytes_swapFields_disjoint h calls mem j 1 (fun c hc => by
    rcases hout c hc with hlt | hge
    · exact Or.inl (by omega)
    · exact Or.inr hge)
  rw [readBytes_one, readBytes_one] at hrb
  exact List.head_eq_of_cons_eq hrb

theorem readByte_drop (mem : List Byte) (k j : Nat) :
    readByte (mem.drop k) j = readByte mem (k + j) := by
  simp [readByte, List.getD_eq_getElem?_getD, List.getElem?_drop]

theorem drop_eq_of_readByte (m1 m2 : List Byte) (k : Nat) (hlen : m1.length = m2.length)
    (hpt : ∀ j, k ≤ j → readByte m1 j = readByte m2 j) : m1.drop k = m2.drop k := by
  apply ext_readByte
  · simp [hlen]
  · intro j _
    rw [readByte_drop, readByte_drop]
    exact hpt (k + j) (Nat.le_add_right k j)

theorem readBytes_eq_take_drop (mem : List Byte) (a n : Nat) (hin : a + n ≤ mem.length) :
    readBytes mem a n = (mem.drop a).take n := by
  induction n generalizing a with
  | zero => simp [readBytes]
  | succ n ih =>
    have ha : a < mem.length := by omega
    rw [readBytes, ih (a + 1) (by omega), List.drop_eq_getElem_cons ha, List.take_succ_cons]
    simp [readByte, List.getD_eq_getElem?_getD, List.getElem?_eq_getElem ha]

theorem readBytes_zero_eq_take (mem : List Byte) (n : Nat) (hin : n ≤ mem.length) :
    readBytes mem 0 n = mem.take n := by
  rw [readBytes_eq_take_drop mem 0 n (by omega), List.drop_zero]

theorem leValue_inj (xs ys : List Byte) (hlen : xs.length = ys.length)
    (hval : leValue xs = leValue ys) : xs = ys := by
  rw [← toLEBytes_leValue xs, ← toLEBytes_leValue ys, hlen, hval]

theorem readByte_of_readBytes_eq (m1 m2 : List Byte) (a n i : Nat) (hi : i < n)
    (heq : readBytes m1 a n = readBytes m2 a n) : readByte m1 (a + i) = readByte m2 (a + i) := by
  induction n generalizing a i with
  | zero => omega
  | succ n ih =>
    simp only [readBytes, List.cons.injEq] at heq
    cases i with
    | zero => exact heq.1
    | succ i =>
      have := ih (a + 1) i (by omega) heq.2
      simpa [Nat.add_assoc, Nat.add_comm 1 i] using this

theorem swapFields_twice (h : Host) (calls : List (Nat × Nat)) (mem : List Byte)
    (hpair : calls.Pairwise callsDisjoint)
    (hin : ∀ c ∈ calls, c.2 + c.1 / 8 ≤ mem.length) :
    swapFields h calls (swapFields h calls mem) = mem := by
  apply ext_readByte
  · rw [swapFields_length, swapFields_length]
  · intro j _
    by_cases hex : ∃ c ∈ calls, c.2 ≤ j ∧ j < c.2 + c.1 / 8
    · obtain ⟨c, hc, hlo, hhi⟩ := hex
      have hreg : readBytes (swapFields h calls (swapFields h calls mem)) c.2 (c.1 / 8)
          = readBytes mem c.2 (c.1 / 8) := by
        rw [readBytes_swapFields_field h calls _ hpair
            (fun e he => by rw [swapFields_length]; exact hin e he) c hc,
          readBytes_swapFields_field h calls mem hpair hin c hc, hostSwap_hostSwap]
      have := readByte_of_readBytes_eq _ _ c.2 (c.1 / 8) (j - c.2) (by omega) hreg
      rwa [show c.2 + (j - c.2) = j by omega] at this
    · have hout : ∀ c ∈ calls, j < c.2 ∨ c.2 + c.1 / 8 ≤ j := by
        intro c hc
        by_contra hcon
        exact hex ⟨c, hc, by omega, by omega⟩
      rw [readByte_swapFields_outside h calls _ j hout,
        readByte_swapFields_outside h calls mem j hout]

theorem sqfs_swapin_dir_index_eq (h : Host) (mem : List Byte) (s : Nat) :
    sqfs_swapin_dir_index h mem s = swapFields h (dir_index_calls s) mem := rfl

theorem sqfs_swapin_base_inode_eq (h : Host) (mem : List Byte) (s : Nat) :
    sqfs_swapin_base_inode h mem s = swapFields h (base_inode_calls s) mem := rfl

theorem sqfs_swapin_ipc_inode_eq (h : Host) (mem : List Byte) (s : Nat) :
    sqfs_swapin_ipc_inode h mem s = swapFields h (ipc_inode_calls s) mem := rfl

theorem sqfs_swapin_lipc_inode_eq (h : Host) (mem : List Byte) (s : Nat) :
    sqfs_swapin_lipc_inode h mem s = swapFields h (lipc_inode_calls s) mem := rfl

theorem sqfs_swapin_dev_inode_eq (h : Host) (mem : List Byte) (s : Nat) :
    sqfs_swapin_dev_inode h mem s = swapFields h (dev_inode_calls s) mem := rfl

theorem sqfs_swapin_ldev_inode_eq (h : Host) (mem : List Byte) (s : Nat) :
    sqfs_swapin_ldev_inode h mem s = swapFields h (ldev_inode_calls s) mem := rfl

theorem sqfs_swapin_symlink_inode_eq (h : Host) (mem : List Byte) (s : Nat) :
    sqfs_swapin_symlink_inode h mem s = swapFields h (symlink_inode_calls s) mem := rfl

theorem sqfs_swapin_reg_inode_eq (h : Host) (mem : List Byte) (s : Nat) :
    sqfs_swapin_reg_inode h mem s = swapFields h (reg_inode_calls s) mem := rfl

theorem sqfs_swapin_lreg_inode_eq (h : Host) (mem : List Byte) (s : Nat) :
    sqfs_swapin_lreg_inode h mem s = swapFields h (lreg_inode_calls s) mem := rfl

theorem sqfs_swapin_dir_inode_eq (h : Host) (mem : List Byte) (s : Nat) :
    sqfs_swapin_dir_inode h mem s = swapFields h (dir_inode_calls s) mem := rfl

theorem sqfs_swapin_ldir_inode_eq (h : Host) (mem : List Byte) (s : Nat) :
    sqfs_swapin_ldir_inode h mem s = swapFields h (ldir_inode_calls s) mem := rfl

theorem sqfs_swapin_dir_entry_eq (h : Host) (mem : List Byte) (s : Nat) :
    sqfs_swapin_dir_entry h mem s = swapFields h (dir_entry_calls s) mem := rfl

theorem sqfs_swapin_dir_header_eq (h : Host) (mem : List Byte) (s : Nat) :
    sqfs_swapin_dir_header h mem s = swapFields h (dir_header_calls s) mem := rfl

theorem sqfs_swapin_fragment_entry_eq (h : Host) (mem : List Byte) (s : Nat) :
    sqfs_swapin_fragment_entry h mem s = swapFields h (fragment_entry_calls s) mem := rfl

theorem sqfs_swapin_xattr_entry_eq (h : Host) (mem : List Byte) (s : Nat) :
    sqfs_swapin_xattr_entry h mem s = swapFields h (xattr_entry_calls s) mem := rfl

theorem sqfs_swapin_xattr_val_eq (h : Host) (mem : List Byte) (s : Nat) :
    sqfs_swapin_xattr_val h mem s = swapFields h (xattr_val_calls s) mem := rfl

theorem sqfs_swapin_xattr_id_eq (h : Host) (mem : List Byte) (s : Nat) :
    sqfs_swapin_xattr_id h mem s = swapFields h (xattr_id_calls s) mem := rfl

theorem sqfs_swapin_xattr_id_table_eq (h : Host) (mem : List Byte) (s : Nat) :
    sqfs_swapin_xattr_id_table h mem s = swapFields h (xattr_id_table_calls s) mem := rfl

/-! ## The conversion primitives and normalisers: further claims -/

/-- C11: for every 16-bit value `n`, `sqfs_swap16` stores exactly the byte
reversal of `n`, `((n AND 0xFF) * 256) + (n DIV 256)`, for example `0x3412`
for `0x1234`: the sum `(n >> 8) + (n << 8)` fits the promoted `int`, and after
truncation to 16 bits the low byte of the result is the high byte of `n` and
the high byte of the result is the low byte of `n`, with no carry between them
and no other bit set. -/
theorem sqfs_swap16_byte_reversal (n : Nat) (hn : n < 2 ^ 16) :
    sqfs_swap16 n = (n &&& 0xFF) * 256 + n / 256
    ∧ (n >>> 8) + (n <<< 8) < 2 ^ 31
    ∧ sqfs_swap16 n < 2 ^ 16
    ∧ sqfs_swap16 n % 256 = n / 256
    ∧ sqfs_swap16 n / 256 = n % 256
    ∧ sqfs_swap16 0x1234 = 0x3412 := by
  have hand : n &&& 0xFF = n % 256 := Nat.and_pow_two_sub_one_eq_mod n 8
  have heq := sqfs_swap16_eq n hn
  rw [heq, hand]
  simp only [Nat.shiftRight_eq_div_pow, Nat.shiftLeft_eq]
  norm_num at hn ⊢
  refine ⟨by omega, by omega, by omega, by omega, by decide⟩

theorem sqfs_swap16_byte_reversal_witness :
    0xABCD < 2 ^ 16
    ∧ (sqfs_swap16 0xABCD = (0xABCD &&& 0xFF) * 256 + 0xABCD / 256
      ∧ (0xABCD >>> 8) + (0xABCD <<< 8) < 2 ^ 31
      ∧ sqfs_swap16 0xABCD < 2 ^ 16
      ∧ sqfs_swap16 0xABCD % 256 = 0xABCD / 256
      ∧ sqfs_swap16 0xABCD / 256 = 0xABCD % 256
      ∧ sqfs_swap16 0x1234 = 0x3412) :=
  ⟨by decide, sqfs_swap16_byte_reversal 0xABCD (by decide)⟩

/-- C12: on a little-endian host, in either build variant, normalization is a
no-op: each of `sqfs_swapin16`, `sqfs_swapin32`, `sqfs_swapin64` and every
`sqfs_swapin_<structure>` routine leaves every byte of memory unchanged,
whatever the memory and the address. -/
theorem normalization_noop_little_endian (asm : Bool) (mem : List Byte) (v : Nat) :
    sqfs_swapin16 ⟨.littleEndian, asm⟩ mem v = mem
    ∧ sqfs_swapin32 ⟨.littleEndian, asm⟩ mem v = mem
    ∧ sqfs_swapin64 ⟨.littleEndian, asm⟩ mem v = mem
    ∧ sqfs_swapin_super_block ⟨.littleEndian, asm⟩ mem v = mem
    ∧ sqfs_swapin_dir_index ⟨.littleEndian, asm⟩ mem v = mem
    ∧ sqfs_swapin_base_inode ⟨.littleEndian, asm⟩ mem v = mem
    ∧ sqfs_swapin_ipc_inode ⟨.littleEndian, asm⟩ mem v = mem
    ∧ sqfs_swapin_lipc_inode ⟨.littleEndian, asm⟩ mem v = mem
    ∧ sqfs_swapin_dev_inode ⟨.littleEndian, asm⟩ mem v = mem
    ∧ sqfs_swapin_ldev_inode ⟨.littleEndian, asm⟩ mem v = mem
    ∧ sqfs_swapin_symlink_inode ⟨.littleEndian, asm⟩ mem v = mem
    ∧ sqfs_swapin_reg_inode ⟨.littleEndian, asm⟩ mem v = mem
    ∧ sqfs_swapin_lreg_inode ⟨.littleEndian, asm⟩ mem v = mem
    ∧ sqfs_swapin_dir_inode ⟨.littleEndian, asm⟩ mem v = mem
    ∧ sqfs_swapin_ldir_inode ⟨.littleEndian, asm⟩ mem v = mem
    ∧ sqfs_swapin_dir_entry ⟨.littleEndian, asm⟩ mem v = mem
    ∧ sqfs_swapin_dir_header ⟨.littleEndian, asm⟩ mem v = mem
    ∧ sqfs_swapin_fragment_entry ⟨.littleEndian, asm⟩ mem v = mem
    ∧ sqfs_swapin_xattr_entry ⟨.littleEndian, asm⟩ mem v = mem
    ∧ sqfs_swapin_xattr_val ⟨.littleEndian, asm⟩ mem v = mem
    ∧ sqfs_swapin_xattr_id ⟨.littleEndian, asm⟩ mem v = mem
    ∧ sqfs_swapin_xattr_id_table ⟨.littleEndian, asm⟩ mem v = mem := by
  refine ⟨?_, ?_, ?_, ?_, ?_, ?_, ?_, ?_, ?_, ?_, ?_, ?_, ?_, ?_, ?_, ?_, ?_, ?_, ?_, ?_, ?_, ?_⟩
  · exact sqfs_swapin_littleEndian asm 16 mem v
  · exact sqfs_swapin_littleEndian asm 32 mem v
  · exact sqfs_swapin_littleEndian asm 64 mem v
  · rw [sqfs_swapin_super_block_eq]; exact swapFields_littleEndian asm _ mem
  · rw [sqfs_swapin_dir_index_eq]; exact swapFields_littleEndian asm _ mem
  · rw [sqfs_swapin_base_inode_eq]; exact swapFields_littleEndian asm _ mem
  · rw [sqfs_swapin_ipc_inode_eq]; exact swapFields_littleEndian asm _ mem
  · rw [sqfs_swapin_lipc_inode_eq]; exact swapFields_littleEndian asm _ mem
  · rw [sqfs_swapin_dev_inode_eq]; exact swapFields_littleEndian asm _ mem
  · rw [sqfs_swapin_ldev_inode_eq]; exact swapFields_littleEndian asm _ mem
  · rw [sqfs_swapin_symlink_inode_eq]; exact swapFields_littleEndian asm _ mem
  · rw [sqfs_swapin_reg_inode_eq]; exact swapFields_littleEndian asm _ mem
  · rw [sqfs_swapin_lreg_inode_eq]; exact swapFields_littleEndian asm _ mem
  · rw [sqfs_swapin_dir_inode_eq]; exact swapFields_littleEndian asm _ mem
  · rw [sqfs_swapin_ldir_inode_eq]; exact swapFields_littleEndian asm _ mem
  · rw [sqfs_swapin_dir_entry_eq]; exact swapFields_littleEndian asm _ mem
  · rw [sqfs_swapin_dir_header_eq]; exact swapFields_littleEndian asm _ mem
  · rw [sqfs_swapin_fragment_entry_eq]; exact swapFields_littleEndian asm _ mem
  · rw [sqfs_swapin_xattr_entry_eq]; exact swapFields_littleEndian asm _ mem
  · rw [sqfs_swapin_xattr_val_eq]; exact swapFields_littleEndian asm _ mem
  · rw [sqfs_swapin_xattr_id_eq]; exact swapFields_littleEndian asm _ mem
  · rw [sqfs_swapin_xattr_id_table_eq]; exact swapFields_littleEndian asm _ mem

/-- C13, counterexample: on a little-endian host there is no buffer for which
two calls of `sqfs_swapin_super_block` differ from one call. -/
theorem super_block_idempotent_little_endian :
    ¬ ∃ buf : List Byte,
      sqfs_swapin_super_block ⟨.littleEndian, true⟩
          (sqfs_swapin_super_block ⟨.littleEndian, true⟩ buf 0) 0
        ≠ sqfs_swapin_super_block ⟨.littleEndian, true⟩ buf 0 := by
  rintro ⟨buf, hne⟩
  apply hne
  rw [sqfs_swapin_super_block_eq, sqfs_swapin_super_block_eq, swapFields_littleEndian,
    swapFields_littleEndian]

/-- C13, amended: on a big-endian host, in either build variant, idempotence
does not hold for `sqfs_swapin_super_block`: there is a 96-byte buffer for
which two calls differ from one call, two calls giving back the original bytes
of every 96-byte buffer; on a little-endian host two calls give the same result
as one call for every buffer. -/
theorem super_block_not_idempotent_big_endian (asm : Bool) :
    (∃ buf : List Byte, buf.length = 96
      ∧ sqfs_swapin_super_block ⟨.bigEndian, asm⟩
            (sqfs_swapin_super_block ⟨.bigEndian, asm⟩ buf 0) 0
          ≠ sqfs_swapin_super_block ⟨.bigEndian, asm⟩ buf 0)
    ∧ (∀ buf : List Byte, buf.length = 96 →
        sqfs_swapin_super_block ⟨.bigEndian, asm⟩
            (sqfs_swapin_super_block ⟨.bigEndian, asm⟩ buf 0) 0 = buf)
    ∧ (∀ buf : List Byte,
        sqfs_swapin_super_block ⟨.littleEndian, asm⟩
            (sqfs_swapin_super_block ⟨.littleEndian, asm⟩ buf 0) 0
          = sqfs_swapin_super_block ⟨.littleEndian, asm⟩ buf 0) := by
  have htwice : ∀ buf : List Byte, buf.length = 96 →
      sqfs_swapin_super_block ⟨.bigEndian, asm⟩
          (sqfs_swapin_super_block ⟨.bigEndian, asm⟩ buf 0) 0 = buf := by
    intro buf hlen
    rw [sqfs_swapin_super_block_eq, sqfs_swapin_super_block_eq]
    exact swapFields_twice _ _ buf (by decide) (by rw [hlen]; decide)
  refine ⟨⟨[0x68, 0x73, 0x71, 0x73] ++ List.replicate 92 0, by decide, ?_⟩, htwice, ?_⟩
  · rw [htwice _ (by decide)]
    intro hsame
    have hfield := readBytes_swapFields_field ⟨.bigEndian, asm⟩ (super_block_calls 0)
      ([0x68, 0x73, 0x71, 0x73] ++ List.replicate 92 0) (by decide) (by decide) (32, 0)
      (by decide)
    rw [← sqfs_swapin_super_block_eq, ← hsame] at hfield
    change readBytes ([0x68, 0x73, 0x71, 0x73] ++ List.replicate 92 0) 0 4
      = hostSwap .bigEndian (readBytes ([0x68, 0x73, 0x71, 0x73] ++ List.replicate 92 0) 0 4)
      at hfield
    revert hfield
    decide
  · intro buf
    rw [sqfs_swapin_super_block_eq, sqfs_swapin_super_block_eq, swapFields_littleEndian,
      swapFields_littleEndian]

/-- C14: `sqfs_swapin_super_block` neither alters nor masks the magic.  For
every 96-byte buffer, on either host and in either build variant, the magic
field the host reads after normalization is the little-endian value of the
first four bytes of the buffer, and it equals `0x73717368` exactly when those
bytes are `0x68, 0x73, 0x71, 0x73` ("hsqs"); `SQFS_MAGIC_SWAP` is the byte
reversal of that magic. -/
theorem super_block_magic_iff (h : Host) (buf : List Byte) (hlen : buf.length = 96) :
    ((read_super_block h.order (sqfs_swapin_super_block h buf 0) 0).s_magic = 0x73717368
        ↔ buf.take 4 = [0x68, 0x73, 0x71, 0x73])
    ∧ (read_super_block h.order (sqfs_swapin_super_block h buf 0) 0).s_magic
        = leValue (buf.take 4)
    ∧ SQUASHFS_MAGIC = 0x73717368
    ∧ SQFS_MAGIC_SWAP = swab 4 SQUASHFS_MAGIC := by
  have hmagic : (read_super_block h.order (sqfs_swapin_super_block h buf 0) 0).s_magic
      = leValue (buf.take 4) := by
    have key := load_swapFields h (super_block_calls 0) buf (by decide)
      (by rw [hlen]; decide) (32, 0) (by decide)
    rw [← readBytes_zero_eq_take buf 4 (by omega), sqfs_swapin_super_block_eq]
    exact key
  refine ⟨?_, hmagic, rfl, by decide⟩
  rw [hmagic]
  constructor
  · intro hval
    apply leValue_inj
    · simp [hlen]
    · rw [hval]; decide
  · intro hbytes
    rw [hbytes]; decide

theorem super_block_magic_iff_witness :
    ([0x68, 0x73, 0x71, 0x73] ++ List.replicate 92 (0 : Byte)).length = 96
    ∧ (read_super_block .bigEndian (sqfs_swapin_super_block ⟨.bigEndian, false⟩
          ([0x68, 0x73, 0x71, 0x73] ++ List.replicate 92 (0 : Byte)) 0) 0).s_magic
        = 0x73717368 :=
  ⟨by decide,
    (super_block_magic_iff ⟨.bigEndian, false⟩
      ([0x68, 0x73, 0x71, 0x73] ++ List.replicate 92 (0 : Byte)) (by decide)).1.mpr
      (by decide)⟩

/-! ## Inode and record normalisers: claims -/

theorem inode_header_frame (h : Host) (rel : List (Nat × Nat)) (mem : List Byte)
    (hrel : ∀ c ∈ rel, 16 ≤ c.2) :
    readBytes (swapFields h (base_inode_calls 0 ++ rel.map (fun c => (c.1, 0 + c.2))) mem) 0 16
        = readBytes (swapFields h (base_inode_calls 0) mem) 0 16
    ∧ read_base_inode h.order
          (swapFields h (base_inode_calls 0 ++ rel.map (fun c => (c.1, 0 + c.2))) mem) 0
        = read_base_inode h.order (swapFields h (base_inode_calls 0) mem) 0 := by
  have key : ∀ a n, a + n ≤ 16 →
      readBytes (swapFields h (base_inode_calls 0 ++ rel.map (fun c => (c.1, 0 + c.2))) mem) a n
        = readBytes (swapFields h (base_inode_calls 0) mem) a n := by
    intro a n han
    rw [swapFields_append]
    apply readBytes_swapFields_disjoint
    intro c hc
    obtain ⟨d, hd, rfl⟩ := List.mem_map.mp hc
    have := hrel d hd
    exact Or.inl (by simp only [Nat.zero_add]; omega)
  refine ⟨key 0 16 (by omega), ?_⟩
  unfold read_base_inode load
  rw [key (0 + base_inode_off.inode_type) (16 / 8) (by decide),
    key (0 + base_inode_off.mode) (16 / 8) (by decide),
    key (0 + base_inode_off.uid) (16 / 8) (by decide),
    key (0 + base_inode_off.guid) (16 / 8) (by decide),
    key (0 + base_inode_off.mtime) (32 / 8) (by decide),
    key (0 + base_inode_off.inode_number) (32 / 8) (by decide)]

theorem swapFields_drop (h : Host) (calls : List (Nat × Nat)) (mem : List Byte) (k : Nat)
    (hk : ∀ c ∈ calls, c.2 + c.1 / 8 ≤ k) :
    (swapFields h calls mem).drop k = mem.drop k := by
  apply drop_eq_of_readByte _ _ _ (swapFields_length h calls mem)
  intro j hj
  apply readByte_swapFields_outside
  intro c hc
  have := hk c hc
  exact Or.inr (by omega)

/-- C15: every inode variant shares the common leading header.  For each of
the normalizers of the ipc, long ipc, device, long device, symlink, regular,
long regular, directory and long directory inode and every buffer, on either
host and in either build variant, the first 16 bytes after the call, and with
them the header field values read from them, are those `sqfs_swapin_base_inode`
leaves on the same buffer; when the buffer holds the 16 header bytes these
values are the little-endian decodings of type tag (16 bits), mode (16), uid
index (16), gid index (16), mtime (32) and inode number (32), in that order. -/
theorem inode_header_common (h : Host) (buf : List Byte) :
    (readBytes (sqfs_swapin_ipc_inode h buf 0) 0 16
        = readBytes (sqfs_swapin_base_inode h buf 0) 0 16
      ∧ read_base_inode h.order (sqfs_swapin_ipc_inode h buf 0) 0
        = read_base_inode h.order (sqfs_swapin_base_inode h buf 0) 0)
    ∧ (readBytes (sqfs_swapin_lipc_inode h buf 0) 0 16
        = readBytes (sqfs_swapin_base_inode h buf 0) 0 16
      ∧ read_base_inode h.order (sqfs_swapin_lipc_inode h buf 0) 0
        = read_base_inode h.order (sqfs_swapin_base_inode h buf 0) 0)
    ∧ (readBytes (sqfs_swapin_dev_inode h buf 0) 0 16
        = readBytes (sqfs_swapin_base_inode h buf 0) 0 16
      ∧ read_base_inode h.order (sqfs_swapin_dev_inode h buf 0) 0
        = read_base_inode h.order (sqfs_swapin_base_inode h buf 0) 0)
    ∧ (readBytes (sqfs_swapin_ldev_inode h buf 0) 0 16
        = readBytes (sqfs_swapin_base_inode h buf 0) 0 16
      ∧ read_base_inode h.order (sqfs_swapin_ldev_inode h buf 0) 0
        = read_base_inode h.order (sqfs_swapin_base_inode h buf 0) 0)
    ∧ (readBytes (sqfs_swapin_symlink_inode h buf 0) 0 16
        = readBytes (sqfs_swapin_base_inode h buf 0) 0 16
      ∧ read_base_inode h.order (sqfs_swapin_symlink_inode h buf 0) 0
        = read_base_inode h.order (sqfs_swapin_base_inode h buf 0) 0)
    ∧ (readBytes (sqfs_swapin_reg_inode h buf 0) 0 16
        = readBytes (sqfs_swapin_base_inode h buf 0) 0 16
      ∧ read_base_inode h.order (sqfs_swapin_reg_inode h buf 0) 0
        = read_base_inode h.order (sqfs_swapin_base_inode h buf 0) 0)
    ∧ (readBytes (sqfs_swapin_lreg_inode h buf 0) 0 16
        = readBytes (sqfs_swapin_base_inode h buf 0) 0 16
      ∧ read_base_inode h.order (sqfs_swapin_lreg_inode h buf 0) 0
        = read_base_inode h.order (sqfs_swapin_base_inode h buf 0) 0)
    ∧ (readBytes (sqfs_swapin_dir_inode h buf 0) 0 16
        = readBytes (sqfs_swapin_base_inode h buf 0) 0 16
      ∧ read_base_inode h.order (sqfs_swapin_dir_inode h buf 0) 0
        = read_base_inode h.order (sqfs_swapin_base_inode h buf 0) 0)
    ∧ (readBytes (sqfs_swapin_ldir_inode h buf 0) 0 16
        = readBytes (sqfs_swapin_base_inode h buf 0) 0 16
      ∧ read_base_inode h.order (sqfs_swapin_ldir_inode h buf 0) 0
        = read_base_inode h.order (sqfs_swapin_base_inode h buf 0) 0)
    ∧ (16 ≤ buf.length →
        read_base_inode h.order (sqfs_swapin_base_inode h buf 0) 0 =
          { inode_type := leValue (readBytes buf 0 2)
            mode := leValue (readBytes buf 2 2)
            uid := leValue (readBytes buf 4 2)
            guid := leValue (readBytes buf 6 2)
            mtime := leValue (readBytes buf 8 4)
            inode_number := leValue (readBytes buf 12 4) }) := by
  refine ⟨?_, ?_, ?_, ?_, ?_, ?_, ?_, ?_, ?_, ?_⟩
  · exact inode_header_frame h [(32, 16)] buf (by decide)
  · exact inode_header_frame h [(32, 16), (32, 20)] buf (by decide)
  · exact inode_header_frame h [(32, 16), (32, 20)] buf (by decide)
  · exact inode_header_frame h [(32, 16), (32, 20), (32, 24)] buf (by decide)
  · exact inode_header_frame h [(32, 16), (32, 20)] buf (by decide)
  · exact inode_header_frame h [(32, 16), (32, 20), (32, 24), (32, 28)] buf (by decide)
  · exact inode_header_frame h [(64, 16), (64, 24), (64, 32), (32, 40), (32, 44), (32, 48), (32, 52)] buf (by decide)
  · exact inode_header_frame h [(32, 16), (32, 20), (16, 24), (16, 26), (32, 28)] buf (by decide)
  · exact inode_header_frame h [(32, 16), (32, 20), (32, 24), (32, 28), (16, 32), (16, 34), (32, 36)] buf (by decide)
  · intro hlen
    have key := load_swapFields h (base_inode_calls 0) buf (by decide)
      (by
        intro c hc
        have : c.2 + c.1 / 8 ≤ 16 := by revert c; decide
        omega)
    rw [sqfs_swapin_base_inode_eq]
    unfold read_base_inode
    rw [squashfs_base_inode.mk.injEq]
    exact ⟨key (16, 0) (by decide), key (16, 2) (by decide), key (16, 4) (by decide),
      key (16, 6) (by decide), key (32, 8) (by decide), key (32, 12) (by decide)⟩

/-- C16: for every 56-byte buffer, on either host and in either build variant,
the fields the host reads after `sqfs_swapin_lreg_inode` are, after the 16-byte
header, the little-endian decodings of start block, file size and sparse-byte
count as 64-bit fields and then of link count, fragment index, in-fragment
offset and xattr index as 32-bit fields, in that order; for every 32-byte
buffer, after `sqfs_swapin_reg_inode` they are those of start block, fragment
index, in-fragment offset and file size as 32-bit fields. -/
theorem reg_lreg_inode_fields (h : Host) (buf buf2 : List Byte) (h56 : buf.length = 56)
    (h32 : buf2.length = 32) :
    load h.order 64 (sqfs_swapin_lreg_inode h buf 0) 16 = leValue (readBytes buf 16 8)
    ∧ load h.order 64 (sqfs_swapin_lreg_inode h buf 0) 24 = leValue (readBytes buf 24 8)
    ∧ load h.order 64 (sqfs_swapin_lreg_inode h buf 0) 32 = leValue (readBytes buf 32 8)
    ∧ load h.order 32 (sqfs_swapin_lreg_inode h buf 0) 40 = leValue (readBytes buf 40 4)
    ∧ load h.order 32 (sqfs_swapin_lreg_inode h buf 0) 44 = leValue (readBytes buf 44 4)
    ∧ load h.order 32 (sqfs_swapin_lreg_inode h buf 0) 48 = leValue (readBytes buf 48 4)
    ∧ load h.order 32 (sqfs_swapin_lreg_inode h buf 0) 52 = leValue (readBytes buf 52 4)
    ∧ load h.order 32 (sqfs_swapin_reg_inode h buf2 0) 16 = leValue (readBytes buf2 16 4)
    ∧ load h.order 32 (sqfs_swapin_reg_inode h buf2 0) 20 = leValue (readBytes buf2 20 4)
    ∧ load h.order 32 (sqfs_swapin_reg_inode h buf2 0) 24 = leValue (readBytes buf2 24 4)
    ∧ load h.order 32 (sqfs_swapin_reg_inode h buf2 0) 28 = leValue (readBytes buf2 28 4) := by
  have klreg := load_swapFields h (lreg_inode_calls 0) buf (by decide) (by rw [h56]; decide)
  have kreg := load_swapFields h (reg_inode_calls 0) buf2 (by decide) (by rw [h32]; decide)
  rw [sqfs_swapin_lreg_inode_eq, sqfs_swapin_reg_inode_eq]
  refine ⟨?_, ?_, ?_, ?_, ?_, ?_, ?_, ?_, ?_, ?_, ?_⟩
  · exact klreg (64, 16) (by decide)
  · exact klreg (64, 24) (by decide)
  · exact klreg (64, 32) (by decide)
  · exact klreg (32, 40) (by decide)
  · exact klreg (32, 44) (by decide)
  · exact klreg (32, 48) (by decide)
  · exact klreg (32, 52) (by decide)
  · exact kreg (32, 16) (by decide)
  · exact kreg (32, 20) (by decide)
  · exact kreg (32, 24) (by decide)
  · exact kreg (32, 28) (by decide)

theorem reg_lreg_inode_fields_witness :
    ((List.range 56).map (fun i => (Fin.ofNat i : Byte))).length = 56
    ∧ ((List.range 32).map (fun i => (Fin.ofNat i : Byte))).length = 32
    ∧ load .bigEndian 64 (sqfs_swapin_lreg_inode ⟨.bigEndian, true⟩
          ((List.range 56).map (fun i => (Fin.ofNat i : Byte))) 0) 16
        = 0x1716151413121110
    ∧ load .bigEndian 32 (sqfs_swapin_reg_inode ⟨.bigEndian, true⟩
          ((List.range 32).map (fun i => (Fin.ofNat i : Byte))) 0) 28
        = 0x1F1E1D1C :=
  have hw := reg_lreg_inode_fields ⟨.bigEndian, true⟩
    ((List.range 56).map (fun i => (Fin.ofNat i : Byte)))
    ((List.range 32).map (fun i => (Fin.ofNat i : Byte))) (by decide) (by decide)
  ⟨by decide, by decide, hw.1.trans (by decide),
    hw.2.2.2.2.2.2.2.2.2.2.trans (by decide)⟩

/-- C17: a normalizer changes nothing outside the multi-byte fields of its
record.  For every buffer, on either host and in either build variant,
`sqfs_swapin_dir_entry` leaves every byte after the first 8 unchanged,
`sqfs_swapin_symlink_inode` every byte after the first 24,
`sqfs_swapin_xattr_entry` and `sqfs_swapin_xattr_val` every byte after the
first 4, and none of them changes the length of the buffer. -/
theorem normalizer_frame (h : Host) (buf : List Byte) :
    ((sqfs_swapin_dir_entry h buf 0).drop 8 = buf.drop 8
      ∧ (sqfs_swapin_dir_entry h buf 0).length = buf.length)
    ∧ ((sqfs_swapin_symlink_inode h buf 0).drop 24 = buf.drop 24
      ∧ (sqfs_swapin_symlink_inode h buf 0).length = buf.length)
    ∧ ((sqfs_swapin_xattr_entry h buf 0).drop 4 = buf.drop 4
      ∧ (sqfs_swapin_xattr_entry h buf 0).length = buf.length)
    ∧ ((sqfs_swapin_xattr_val h buf 0).drop 4 = buf.drop 4
      ∧ (sqfs_swapin_xattr_val h buf 0).length = buf.length) := by
  rw [sqfs_swapin_dir_entry_eq, sqfs_swapin_symlink_inode_eq, sqfs_swapin_xattr_entry_eq,
    sqfs_swapin_xattr_val_eq]
  exact ⟨⟨swapFields_drop h _ buf 8 (by decide), swapFields_length h _ buf⟩,
    ⟨swapFields_drop h _ buf 24 (by decide), swapFields_length h _ buf⟩,
    ⟨swapFields_drop h _ buf 4 (by decide), swapFields_length h _ buf⟩,
    ⟨swapFields_drop h _ buf 4 (by decide), swapFields_length h _ buf⟩⟩

/-- C18: for every build configuration the number of compression types
`sqfs_compression_supported` writes is at most 5, so at most the number 6 of
known types, and smaller than `SQFS_COMP_MAX`: every write index (the indices
below the final `i`) lies inside the array of `SQFS_COMP_MAX` entries, whose
length the call does not change, and every entry from index `i` up to
`SQFS_COMP_MAX - 1` is `SQFS_COMP_UNKNOWN`, the entry at index `i` among them,
so the list is terminated by an unknown entry. -/
theorem supported_count_bounded (cfg : Config) (SQFS_COMP_MAX : Nat)
    (hmax : 7 ≤ SQFS_COMP_MAX) (types : List Int) (hlen : types.length = SQFS_COMP_MAX) :
    (sqfs_compression_supported cfg SQFS_COMP_MAX types).2 ≤ 5
    ∧ (sqfs_compression_supported cfg SQFS_COMP_MAX types).2 ≤ 6
    ∧ (sqfs_compression_supported cfg SQFS_COMP_MAX types).2 < SQFS_COMP_MAX
    ∧ (∀ k, k < (sqfs_compression_supported cfg SQFS_COMP_MAX types).2 → k < SQFS_COMP_MAX)
    ∧ (sqfs_compression_supported cfg SQFS_COMP_MAX types).1.length = SQFS_COMP_MAX
    ∧ (∀ j, (sqfs_compression_supported cfg SQFS_COMP_MAX types).2 ≤ j → j < SQFS_COMP_MAX →
        (sqfs_compression_supported cfg SQFS_COMP_MAX types).1[j]? = some SQFS_COMP_UNKNOWN)
    ∧ (sqfs_compression_supported cfg SQFS_COMP_MAX types).1[
          (sqfs_compression_supported cfg SQFS_COMP_MAX types).2]? = some SQFS_COMP_UNKNOWN := by
  obtain ⟨m, rfl⟩ : ∃ m, SQFS_COMP_MAX = m + 7 := ⟨SQFS_COMP_MAX - 7, by omega⟩
  rw [sqfs_compression_supported_eq cfg m types hlen]
  have hcount : (source_order.filter (fun t => (sqfs_decompressor_get cfg t).isSome)).length
      ≤ 5 := List.length_filter_le _ _
  generalize source_order.filter (fun t => (sqfs_decompressor_get cfg t).isSome) = F at hcount
  have htail : ∀ j, F.length ≤ j → j < m + 7 →
      (F ++ List.replicate (m + 7 - F.length) SQFS_COMP_UNKNOWN)[j]?
        = some SQFS_COMP_UNKNOWN := by
    intro j hlo hhi
    rw [List.getElem?_append_right hlo, List.getElem?_replicate_of_lt (by omega)]
  refine ⟨hcount, by omega, by show F.length < m + 7; omega, ?_, ?_, htail, ?_⟩
  · intro k hk
    have : k < F.length := hk
    omega
  · simp only [List.length_append, List.length_replicate]
    omega
  · exact htail F.length (Nat.le_refl _) (by omega)

theorem supported_count_bounded_witness :
    7 ≤ 16 ∧ (List.replicate 16 (9 : Int)).length = 16
    ∧ (sqfs_compression_supported ⟨true, true, true, true, true, false, true⟩ 16
          (List.replicate 16 9)).2 ≤ 5
    ∧ (sqfs_compression_supported ⟨true, true, true, true, true, false, true⟩ 16
          (List.replicate 16 9)).1[5]? = some SQFS_COMP_UNKNOWN :=
  have hw := supported_count_bounded ⟨true, true, true, true, true, false, true⟩ 16 (by decide)
    (List.replicate 16 9) (by decide)
  ⟨by decide, by decide, hw.1, hw.2.2.2.2.2.1 5 (by decide) (by decide)⟩

/-! ## Decoding and the decoder handle: claims -/

theorem toInt_of_lt (n : Nat) (hn : n < 2 ^ 31) : toInt n = (n : Int) := by
  unfold toInt
  have h1 : n % 2 ^ 32 = n := Nat.mod_eq_of_lt (by omega)
  rw [h1, if_pos hn]

theorem get_some_cases (cfg : Config) (t : Int) (d : sqfs_decompressor)
    (hget : sqfs_decompressor_get cfg t = some d) :
    (t = ZLIB_COMPRESSION ∧ d = .zlib) ∨ (t = XZ_COMPRESSION ∧ d = .xz)
    ∨ (t = LZO_COMPRESSION ∧ d = .lzo) ∨ (t = LZ4_COMPRESSION ∧ d = .lz4)
    ∨ (t = ZSTD_COMPRESSION ∧ d = .zstd) := by
  unfold sqfs_decompressor_get at hget
  split at hget
  · rename_i hc
    exact Or.inl ⟨hc.2, (Option.some.inj hget).symm⟩
  split at hget
  · rename_i hc
    exact Or.inr (Or.inl ⟨hc.2, (Option.some.inj hget).symm⟩)
  split at hget
  · rename_i hc
    exact Or.inr (Or.inr (Or.inl ⟨hc.2, (Option.some.inj hget).symm⟩))
  split at hget
  · rename_i hc
    exact Or.inr (Or.inr (Or.inr (Or.inl ⟨hc.2, (Option.some.inj hget).symm⟩)))
  split at hget
  · rename_i hc
    exact Or.inr (Or.inr (Or.inr (Or.inr ⟨hc.2, (Option.some.inj hget).symm⟩)))
  · cases hget

/-- C19, counterexample: with the stored codec as library, the lz4 decoder
selected on a build with lz4, the empty payload and an output buffer of the
capacity `2 ^ 31`, the library called with the true sizes recovers the payload, and the
wrapper, which passes the capacity as the `int` `-2 ^ 31`, returns `SQFS_ERR`. -/
theorem lz4_round_trip_fails_at_int_overflow :
    sqfs_decompressor_get ⟨false, false, false, true, false, false, false⟩ LZ4_COMPRESSION
        = some sqfs_decompressor.lz4
    ∧ libsRecover storedLibs storedCompress [] (List.replicate (2 ^ 31) 0) (2 ^ 31) none
    ∧ toInt (2 ^ 31) = -2 ^ 31
    ∧ (call_decompressor ⟨false, false, false, true, false, false, false⟩ storedLibs
          sqfs_decompressor.lz4 none (storedCompress LZ4_COMPRESSION [])
          (storedCompress LZ4_COMPRESSION []).length (List.replicate (2 ^ 31) 0) (2 ^ 31)).1.err = sqfs_err.SQFS_ERR := by
  refine ⟨by decide, ?_, by decide, by decide⟩
  unfold libsRecover
  decide

/-- C19, amended: for every supported compression type and every payload `x`
(the empty payload and a payload as long as the output capacity included),
whenever the library decode routine recovers `x` from its compressed form (the
contract `libsRecover`), the decode function `sqfs_decompressor_get` selects
for that type returns `SQFS_OK`, reports the length of `x` and leaves `x` in
the output buffer; for lz4 this holds when the compressed length and the
capacity are below `2 ^ 31`, since the wrapper passes both as `int`. -/
theorem decode_recovers_payload (cfg : Config) (L : Libs)
    (compress : Int → List Byte → List Byte) (t : Int) (d : sqfs_decompressor)
    (g : Option Nat) (x out : List Byte) (cap : Nat)
    (hget : sqfs_decompressor_get cfg t = some d)
    (hlib : libsRecover L compress x out cap g)
    (hint : t = LZ4_COMPRESSION → (compress t x).length < 2 ^ 31 ∧ cap < 2 ^ 31) :
    (call_decompressor cfg L d g (compress t x) (compress t x).length out cap).1.err
        = sqfs_err.SQFS_OK
    ∧ (call_decompressor cfg L d g (compress t x) (compress t x).length out cap).1.outsz
        = x.length
    ∧ (call_decompressor cfg L d g (compress t x) (compress t x).length out cap).1.out.take
        x.length = x := by
  obtain ⟨hz, hld, hxz, hzig, hlzo, hlz4, hzstd⟩ := hlib
  rcases get_some_cases cfg t d hget with ⟨rfl, rfl⟩ | ⟨rfl, rfl⟩ | ⟨rfl, rfl⟩ | ⟨rfl, rfl⟩
    | ⟨rfl, rfl⟩
  · unfold call_decompressor
    cases hU : cfg.USE_LIBDEFLATE
    · simp only [Bool.false_eq_true, if_false, sqfs_decompressor_zlib]
      rw [if_neg (by rw [hz.1]; simp)]
      exact ⟨rfl, hz.2.1, hz.2.2⟩
    · simp only [if_true, sqfs_decompressor_zlib_libdeflate]
      cases g with
      | none =>
        simp only [Option.getD] at hld ⊢
        rw [if_neg (by rw [hld.1]; simp)]
        exact ⟨rfl, hld.2.1, hld.2.2⟩
      | some h0 =>
        simp only [Option.getD] at hld ⊢
        rw [if_neg (by rw [hld.1]; simp)]
        exact ⟨rfl, hld.2.1, hld.2.2⟩
  · unfold call_decompressor
    cases hS : cfg.USE_SYSTEM_XZ
    · simp only [Bool.false_eq_true, if_false, sqfs_decompressor_xz_zig]
      rw [if_neg (by rw [hzig.1]; simp)]
      exact ⟨rfl, hzig.2.1, hzig.2.2⟩
    · simp only [if_true, sqfs_decompressor_xz]
      rw [if_neg (by rw [hxz.1]; simp)]
      exact ⟨rfl, hxz.2.1, hxz.2.2⟩
  · simp only [call_decompressor, sqfs_decompressor_lzo]
    rw [if_neg (by rw [hlzo.1]; simp)]
    exact ⟨rfl, hlzo.2.1, hlzo.2.2⟩
  · obtain ⟨hin, hcap⟩ := hint rfl
    simp only [call_decompressor, sqfs_decompressor_lz4]
    rw [toInt_of_lt _ hin, toInt_of_lt _ hcap, if_neg (by rw [hlz4.1]; omega)]
    refine ⟨rfl, ?_, hlz4.2⟩
    show Int.toNat _ = _
    rw [hlz4.1]
    exact Int.toNat_ofNat _
  · simp only [call_decompressor, sqfs_decompressor_zstd]
    rw [if_neg (by rw [hzstd.2.1]; simp)]
    exact ⟨rfl, hzstd.1, hzstd.2.2⟩

theorem decode_recovers_payload_witness :
    sqfs_decompressor_get ⟨true, true, false, false, false, false, true⟩ 1
        = some sqfs_decompressor.zlib
    ∧ libsRecover storedLibs storedCompress [1, 2, 3] [0, 0, 0] 3 none
    ∧ (call_decompressor ⟨true, true, false, false, false, false, true⟩ storedLibs
          sqfs_decompressor.zlib none (storedCompress 1 [1, 2, 3])
          (storedCompress 1 [1, 2, 3]).length [0, 0, 0] 3).1.err = sqfs_err.SQFS_OK
    ∧ (call_decompressor ⟨true, true, false, false, false, false, true⟩ storedLibs
          sqfs_decompressor.zlib none (storedCompress 1 [1, 2, 3])
          (storedCompress 1 [1, 2, 3]).length [0, 0, 0] 3).1.outsz = 3 :=
  have hlib : libsRecover storedLibs storedCompress [1, 2, 3] [0, 0, 0] 3 none := by
    unfold libsRecover; decide
  have hw := decode_recovers_payload ⟨true, true, false, false, false, false, true⟩ storedLibs
    storedCompress 1 sqfs_decompressor.zlib none [1, 2, 3] [0, 0, 0] 3 (by decide) hlib
    (by decide)
  ⟨by decide, hlib, hw.1, hw.2.1⟩

/-- C20: in the `USE_LIBDEFLATE` build the decoder handle is process-wide and
reused.  Whatever the library and the arguments, the handle a call of
`sqfs_decompressor_zlib` allocated (or found) is still held in the global
`ldef_decompressor` when the call returns, a later call passes that same
handle to the library, and after any non-empty sequence of calls the global
still holds it; with a library that reports the handle it is given, two calls
starting from `NULL` both report the handle 7 of the first call. -/
theorem libdeflate_handle_reused (L : Libs) (g : Option Nat)
    (in1 : List Byte) (insz1 : Nat) (out1 : List Byte) (outsz1 : Nat)
    (in2 : List Byte) (insz2 : Nat) (out2 : List Byte) (outsz2 : Nat) :
    (sqfs_decompressor_zlib_libdeflate L g in1 insz1 out1 outsz1).2
        = some (g.getD L.libdeflate_alloc_decompressor)
    ∧ (sqfs_decompressor_zlib_libdeflate L
          (sqfs_decompressor_zlib_libdeflate L g in1 insz1 out1 outsz1).2
          in2 insz2 out2 outsz2).1.outsz
        = (L.libdeflate_zlib_decompress (g.getD L.libdeflate_alloc_decompressor)
            in2 insz2 out2 outsz2 outsz2).len
    ∧ (∀ calls : List (List Byte × Nat × List Byte × Nat), calls ≠ [] →
        (zlib_libdeflate_calls L g calls).2 = some (g.getD L.libdeflate_alloc_decompressor))
    ∧ (zlib_libdeflate_calls handleLibs none [([], 0, [], 0), ([], 0, [], 0)]).1.map
        (fun r => r.outsz) = [7, 7]
    ∧ (zlib_libdeflate_calls handleLibs none [([], 0, [], 0), ([], 0, [], 0)]).2 = some 7 := by
  have hkeep : ∀ (g0 : Option Nat) (i : List Byte) (n : Nat) (o : List Byte) (z : Nat),
      (sqfs_decompressor_zlib_libdeflate L g0 i n o z).2
        = some (g0.getD L.libdeflate_alloc_decompressor) := by
    intro g0 i n o z
    unfold sqfs_decompressor_zlib_libdeflate
    cases g0 <;> (simp only [Option.getD]; split <;> rfl)
  refine ⟨hkeep g in1 insz1 out1 outsz1, ?_, ?_, by decide, by decide⟩
  · rw [hkeep g in1 insz1 out1 outsz1]
    unfold sqfs_decompressor_zlib_libdeflate
    simp only [Option.getD]
    split <;> rfl
  · intro calls hne
    induction calls generalizing g with
    | nil => exact absurd rfl hne
    | cons c cs ih =>
      simp only [zlib_libdeflate_calls]
      rw [hkeep g c.1 c.2.1 c.2.2.1 c.2.2.2]
      cases cs with
      | nil => rfl
      | cons c2 cs2 =>
        have := ih (some (g.getD L.libdeflate_alloc_decompressor)) (by simp)
        simpa using this

/-! ## Build variants and failed decodes: claims -/

theorem le_to_cpu_lt (o : ByteOrder) (BITS : Nat) (mem : List Byte) (v : Nat) :
    le_to_cpu o BITS (load o BITS mem v) < 256 ^ (BITS / 8) := by
  cases o
  · have hlt := leValue_lt (readBytes mem v (BITS / 8))
    rw [readBytes_length] at hlt
    exact hlt
  · have hlt := leValue_lt (toLEBytes (load .bigEndian BITS mem v) (BITS / 8)).reverse
    rw [List.length_reverse, toLEBytes_length] at hlt
    show swab (BITS / 8) _ < _
    rw [swab_eq]
    exact hlt

theorem load_sqfs_swapin_asm (o : ByteOrder) (BITS : Nat) (mem : List Byte) (v : Nat)
    (hin : v + BITS / 8 ≤ mem.length) :
    load o BITS (sqfs_swapin_asm o BITS mem v) v = le_to_cpu o BITS (load o BITS mem v) := by
  unfold sqfs_swapin_asm
  rw [load_store o BITS mem v _ hin]
  exact Nat.mod_eq_of_lt (le_to_cpu_lt o BITS mem v)

/-- C21: the two build variants of the conversion primitives agree.  For
every width, 16, 32 and 64 among them, every memory and location inside it and
either host byte order, the portable loop-based `sqfs_swapinN` leaves the same
bytes as the variant defined through `__leN_to_cpu`, and the value the host
reads from the location after either is `__leN_to_cpu` of the value it read
before: that value itself on a little-endian host, its byte reversal on a
big-endian host. -/
theorem swapin_variants_agree (o : ByteOrder) (BITS : Nat) (mem : List Byte) (v : Nat)
    (hin : v + BITS / 8 ≤ mem.length) :
    sqfs_swapin_portable o BITS mem v = sqfs_swapin_asm o BITS mem v
    ∧ load o BITS (sqfs_swapin_portable o BITS mem v) v
        = le_to_cpu o BITS (load o BITS mem v)
    ∧ load o BITS (sqfs_swapin_asm o BITS mem v) v = le_to_cpu o BITS (load o BITS mem v)
    ∧ le_to_cpu .littleEndian BITS (load .littleEndian BITS mem v)
        = load .littleEndian BITS mem v
    ∧ le_to_cpu .bigEndian BITS (load .bigEndian BITS mem v)
        = swab (BITS / 8) (load .bigEndian BITS mem v) := by
  have hsame : sqfs_swapin_portable o BITS mem v = sqfs_swapin_asm o BITS mem v := by
    rw [sqfs_swapin_portable_eq, sqfs_swapin_asm_eq]
  refine ⟨hsame, ?_, load_sqfs_swapin_asm o BITS mem v hin, rfl, rfl⟩
  rw [hsame]
  exact load_sqfs_swapin_asm o BITS mem v hin

theorem swapin_variants_agree_witness :
    0 + 32 / 8 ≤ ([0x68, 0x73, 0x71, 0x73] : List Byte).length
    ∧ sqfs_swapin_portable .bigEndian 32 [0x68, 0x73, 0x71, 0x73] 0
        = sqfs_swapin_asm .bigEndian 32 [0x68, 0x73, 0x71, 0x73] 0
    ∧ load .bigEndian 32 (sqfs_swapin_portable .bigEndian 32 [0x68, 0x73, 0x71, 0x73] 0) 0
        = swab 4 0x68737173 :=
  have hw := swapin_variants_agree .bigEndian 32 [0x68, 0x73, 0x71, 0x73] 0 (by decide)
  ⟨by decide, hw.1, hw.2.1.trans (by decide)⟩

/-- C22: a failed decode leaves the capacity variable of the caller untouched.
For the wrappers of zlib (`uncompress`), system xz, lzo, lz4 and zstd, whatever
the library reports, whenever the wrapper returns `SQFS_ERR` the value of
`*outsz` after the call is its value before the call; for example a decode
of three stored bytes into a capacity of 1 fails and leaves `*outsz` at 1. -/
theorem failed_decode_keeps_outsz (L : Libs) (in_ : List Byte) (insz : Nat)
    (out : List Byte) (outsz : Nat) :
    ((sqfs_decompressor_zlib L in_ insz out outsz).err = sqfs_err.SQFS_ERR
        → (sqfs_decompressor_zlib L in_ insz out outsz).outsz = outsz)
    ∧ ((sqfs_decompressor_xz L in_ insz out outsz).err = sqfs_err.SQFS_ERR
        → (sqfs_decompressor_xz L in_ insz out outsz).outsz = outsz)
    ∧ ((sqfs_decompressor_lzo L in_ insz out outsz).err = sqfs_err.SQFS_ERR
        → (sqfs_decompressor_lzo L in_ insz out outsz).outsz = outsz)
    ∧ ((sqfs_decompressor_lz4 L in_ insz out outsz).err = sqfs_err.SQFS_ERR
        → (sqfs_decompressor_lz4 L in_ insz out outsz).outsz = outsz)
    ∧ ((sqfs_decompressor_zstd L in_ insz out outsz).err = sqfs_err.SQFS_ERR
        → (sqfs_decompressor_zstd L in_ insz out outsz).outsz = outsz)
    ∧ ((sqfs_decompressor_zlib storedLibs [1, 2, 3] 3 [0] 1).err = sqfs_err.SQFS_ERR
      ∧ (sqfs_decompressor_zlib storedLibs [1, 2, 3] 3 [0] 1).outsz = 1) := by
  refine ⟨?_, ?_, ?_, ?_, ?_, by decide⟩
  · simp only [sqfs_decompressor_zlib]
    split
    · intro _; rfl
    · intro herr; cases herr
  · simp only [sqfs_decompressor_xz]
    split
    · intro _; rfl
    · intro herr; cases herr
  · simp only [sqfs_decompressor_lzo]
    split
    · intro _; rfl
    · intro herr; cases herr
  · simp only [sqfs_decompressor_lz4]
    split
    · intro _; rfl
    · intro herr; cases herr
  · simp only [sqfs_decompressor_zstd]
    split
    · intro _; rfl
    · intro herr; cases herr

end Squashfuse
